import Mathlib

/-!
Verification of the command-list interpreter and 9-bit bit-packing codec of
`drivers/gpu/drm/panel/panel-simple.c`.

The driver's externally-provided primitives (`spi_sync`, `i2c_transfer`,
`mipi_dsi_*`) are abstracted as an environment `Env` that supplies the return
status and read data of the n-th call of each primitive; every call is also
recorded in an event trace so that the physical transfers, retries and delays
performed by the code are observable.

Machine integers are modelled as `Nat` with explicit `% 2 ^ 32` (for the C
`unsigned` accumulators) and `% 256` (for `u8` stores) at the points where the
C code truncates.  Loops are translated as structural recursion on an explicit
fuel argument equal to an obvious bound on the iteration count of the C loop
(the C loops decrement a counter by a fixed positive amount each iteration,
so the bound is exact and the fuel never runs out at the call sites used here).
-/

set_option maxHeartbeats 1600000
set_option maxRecDepth 16384

namespace PanelSimple

/-- Environment supplying the results of the external transport primitives:
for each primitive, the return status (and, for reads, the fetched data) of
its n-th invocation. -/
structure Env where
  i2cRet : Nat → Int
  i2cData : Nat → List Nat
  genWriteRet : Nat → Int
  dcsWriteRet : Nat → Int
  mrpsRet : Nat → Int
  genReadRet : Nat → Int
  genReadData : Nat → List Nat
  dcsReadRet : Nat → Int
  dcsReadData : Nat → List Nat
  spiRet : Nat → Int
  spiData : Nat → List Nat

/-- Observable events: each physical transfer attempt, and each sleep. -/
inductive Ev where
  | i2cXfer (tx : List Nat) (rxLen : Option Nat) (ret : Int)
  | sleepEv (ms : Nat)
  | genWrite (p : List Nat) (ret : Int)
  | dcsWrite (p : List Nat) (ret : Int)
  | mrpsCall (v : Nat) (ret : Int)
  | genRead (c0 c1 : Nat) (n : Nat) (ret : Int)
  | dcsRead (c0 : Nat) (n : Nat) (ret : Int)
  | spiXfer (tx : List Nat) (rx : Bool) (ret : Int)
  deriving DecidableEq, Repr

/-- The mutable state of `struct panel_simple` that the codec and interpreter
touch, together with the event trace and per-primitive call counters. -/
structure St where
  tx_buf : List Nat
  rx_buf : List Nat
  spi_bits : Nat
  spiPresent : Bool
  spi_9bit : Bool
  trace : List Ev
  nI2c : Nat
  nGenW : Nat
  nDcsW : Nat
  nMrps : Nat
  nGenR : Nat
  nDcsR : Nat
  nSpi : Nat
  deriving DecidableEq, Repr

/-- Pad or truncate a list of bytes to exactly `n` entries (a transfer of
`n` bytes fills exactly `n` bytes of the destination). -/
def padTo (n : Nat) (l : List Nat) : List Nat :=
  (l ++ List.replicate n 0).take n

/-- `memcpy` of `src` into the front of `buf` (buffer length preserved when
`src` is no longer than `buf`). -/
def overwrite (buf src : List Nat) : List Nat :=
  src ++ buf.drop src.length

/-- Swap the first two bytes (the two-wire backends do this in place). -/
def swap2 : List Nat → List Nat
  | a :: b :: t => b :: a :: t
  | l => l

/-- `spi_send`: issues the pending `spi_bits` bits as one transfer of
`(spi_bits + 7) / 8` bytes and resets the bit accumulator; a no-op returning
0 when no SPI device is configured or no bits are pending. -/
def spi_send (env : Env) (st : St) (rx : Bool) : St × Int :=
  if ¬ st.spiPresent ∨ st.spi_bits = 0 then (st, 0)
  else
    let len := (st.spi_bits + 7) >>> 3
    let tx := st.tx_buf.take len
    let ret := env.spiRet st.nSpi
    let rxb := if rx then padTo 63 (env.spiData st.nSpi) else st.rx_buf
    ({ st with spi_bits := 0, rx_buf := rxb, nSpi := st.nSpi + 1,
               trace := st.trace ++ [Ev.spiXfer tx rx ret] }, ret)

/-- The `while (bits > 0)` loop of `store_9bit`.  One fuel unit per iteration;
the C loop runs `⌈bits/8⌉` times, so fuel `bits` is always enough. -/
def store9Loop (fuel : Nat) (p : List Nat) (buf : List Nat)
    (idx val v_bits bits : Nat) : List Nat :=
  match fuel with
  | 0 => buf
  | fuel + 1 =>
    if bits = 0 then buf
    else
      let buf' := buf.set idx ((val >>> (v_bits - 8)) % 256)
      let bits' := bits - 8
      let vb' := v_bits - 8
      if vb' < 8 then
        let val' := (val <<< 9) % 2 ^ 32
        match p with
        | [] => store9Loop fuel [] buf' (idx + 1) val' (vb' + 9) bits'
        | b :: tl => store9Loop fuel tl buf' (idx + 1) (val' ||| 0x100 ||| b) (vb' + 9) bits'
      else store9Loop fuel p buf' (idx + 1) val vb' bits'

/-- The part of `store_9bit` after the capacity check: preload the partial
byte at bit offset `i`, feed the first byte without the 0x100 marker, then
run the store loop.  Returns the updated transmit buffer. -/
def store9start (tx : List Nat) (i : Nat) (p : List Nat) (bits : Nat) : List Nat :=
  let idx := i >>> 3
  let v0 := i &&& 7
  let val0 := if v0 ≠ 0 then (tx.getD idx 0) >>> (8 - v0) else 0
  let bits1 := if v0 ≠ 0 then bits + v0 else bits
  let val1 := (val0 <<< 9) % 2 ^ 32
  let vb1 := v0 + 9
  match p with
  | [] => store9Loop (bits1 + 9) [] tx idx val1 vb1 bits1
  | b :: tl => store9Loop (bits1 + 9) tl tx idx (val1 ||| b) vb1 bits1

/-- `store_9bit`: append `9 * |p|` bits (one marker bit plus eight data bits
per byte) to the transmit buffer at the current bit offset; if the new total
would exceed 504 bits the buffer is flushed first, and a single call that
alone needs more than 504 bits fails with `-EINVAL` (-22). -/
def store_9bit (env : Env) (st : St) (p : List Nat) : St × Int :=
  let bits := p.length * 9
  if st.spi_bits + bits > 504 then
    let fl := spi_send env st false
    if bits > 504 then (fl.1, -22)
    else ({ fl.1 with spi_bits := bits, tx_buf := store9start fl.1.tx_buf 0 p bits }, fl.2)
  else
    ({ st with spi_bits := st.spi_bits + bits,
               tx_buf := store9start st.tx_buf st.spi_bits p bits }, 0)

/-- The `while (bits > 0)` loop of `store_high` (refill with 24 one-bits
when fewer than 8 valid bits remain, then emit one byte per iteration). -/
def storeHighLoop (fuel : Nat) (buf : List Nat) (idx val v_bits bits : Nat) : List Nat :=
  match fuel with
  | 0 => buf
  | fuel + 1 =>
    if bits = 0 then buf
    else
      let val1 := if v_bits < 8 then ((val <<< 24) ||| 0xffffff) % 2 ^ 32 else val
      let vb1 := if v_bits < 8 then v_bits + 24 else v_bits
      storeHighLoop fuel (buf.set idx ((val1 >>> (vb1 - 8)) % 256)) (idx + 1)
        val1 (vb1 - 8) (bits - 8)

/-- `store_high`: append `bits` all-one bits (no 9-bit marker discipline) to
the transmit buffer; fails with `-EINVAL` if the total would exceed 504 bits
(no implicit flush here). -/
def store_high (st : St) (bits : Nat) : St × Int :=
  if st.spi_bits + bits > 504 then (st, -22)
  else
    let i := st.spi_bits
    let idx := i >>> 3
    let v0 := i &&& 7
    let val0 := if v0 ≠ 0 then (st.tx_buf.getD idx 0) >>> (8 - v0) else 0
    let bits1 := if v0 ≠ 0 then bits + v0 else bits
    ({ st with spi_bits := i + bits,
               tx_buf := storeHighLoop (bits1 + 24) st.tx_buf idx val0 v0 bits1 }, 0)

/-- The `while (bytes > 0)` loop of `extract_data` (structural on the byte
count). -/
def extractLoop (bytes : Nat) (buf : List Nat) (q val v_bits : Nat)
    (dst : List Nat) : List Nat :=
  match bytes with
  | 0 => dst
  | b + 1 =>
    let refill := v_bits < 8
    let val1 := if refill then ((val <<< 8) ||| buf.getD q 0) % 2 ^ 32 else val
    let vb1 := if refill then v_bits + 8 else v_bits
    let q1 := if refill then q + 1 else q
    extractLoop b buf q1 val1 (vb1 - 8) (dst ++ [(val1 >>> (vb1 - 8)) % 256])

/-- `extract_data`: extract `bytes` plain 8-bit bytes from `buf` starting at
bit `start_bit` (big-endian within each source byte, no marker handling). -/
def extract_data (bytes : Nat) (buf : List Nat) (start_bit : Nat) : List Nat :=
  let q := start_bit >>> 3
  let r := start_bit &&& 7
  if r ≠ 0 then extractLoop bytes buf (q + 1) (buf.getD q 0) (8 - r) []
  else extractLoop bytes buf q 0 0 []

/-- Unpack `n` data bytes from a 9-bit-framed bitstream: byte `k` occupies
bits `9k+1 .. 9k+8` (bit `9k` is its marker), so it is extracted by one
single-byte `extract_data` call at start bit `9k+1`. -/
def unpack9 (n : Nat) (buf : List Nat) : List Nat :=
  (List.range n).map fun k => (extract_data 1 buf (9 * k + 1)).headD 0

/-- Bit `t` of a byte buffer, bits counted most-significant-first within each
byte (the order in which the SPI hardware shifts them out). -/
def bufBit (buf : List Nat) (t : Nat) : Bool :=
  (buf.getD (t / 8) 0).testBit (7 - t % 8)

/-- Bit `t` of the ideal 9-bit framing of byte list `B`: each byte becomes a
marker bit (0 for the first byte of the call, 1 for the rest) followed by its
eight data bits, most significant first. -/
def streamBit (B : List Nat) (t : Nat) : Bool :=
  if t < 9 * B.length then
    if t % 9 = 0 then decide (t / 9 ≠ 0)
    else (B.getD (t / 9) 0).testBit (8 - t % 9)
  else false

/-- `simple_i2c_write`: copy the payload into the staging buffer, swap the
first two bytes when there are at least two, transfer; on failure sleep 10 ms
and retry exactly once. -/
def simple_i2c_write (env : Env) (st : St) (tx : List Nat) : St × Int :=
  if tx.length > 63 then (st, -22)
  else
    let buf := swap2 tx
    let st1 := { st with tx_buf := overwrite st.tx_buf buf }
    let r1 := env.i2cRet st1.nI2c
    let st2 := { st1 with nI2c := st1.nI2c + 1,
                          trace := st1.trace ++ [Ev.i2cXfer buf none r1] }
    if r1 < 0 then
      let st3 := { st2 with trace := st2.trace ++ [Ev.sleepEv 10] }
      let r2 := env.i2cRet st3.nI2c
      let st4 := { st3 with nI2c := st3.nI2c + 1,
                            trace := st3.trace ++ [Ev.i2cXfer buf none r2] }
      (st4, if r2 < 0 then r2 else 0)
    else (st2, 0)

/-- `simple_i2c_read`: copy and swap the command bytes, then issue a single
combined write-then-read transaction (two message segments, one transfer);
no retry.  Returns the state, the status, and the `rx_len` fetched bytes
(zeros when the transfer failed, matching the caller's zeroed buffer). -/
def simple_i2c_read (env : Env) (st : St) (tx : List Nat) (rx_len : Nat) :
    St × Int × List Nat :=
  if tx.length > 63 then (st, -22, List.replicate rx_len 0)
  else if rx_len > 63 then (st, -22, List.replicate rx_len 0)
  else
    let buf := swap2 tx
    let st1 := { st with tx_buf := overwrite st.tx_buf buf }
    let r := env.i2cRet st1.nI2c
    let dat := padTo rx_len (env.i2cData st1.nI2c)
    let st2 := { st1 with nI2c := st1.nI2c + 1,
                          trace := st1.trace ++ [Ev.i2cXfer buf (some rx_len) r] }
    (st2, (if r < 0 then r else 0), if r < 0 then List.replicate rx_len 0 else dat)

/-! ## Command-list opcodes

The numeric opcode values come from the device-tree binding header
`dt-bindings/display/simple_panel_mipi_cmds.h`, which is not among the
sources here; only their relative ordering is constrained by the dispatch
code of `send_cmd_list`. -/

/-- Modelled from the spec: bytes below this value are direct-write lengths;
this and the following dedicated opcodes select the other instruction
variants (`simple_panel_mipi_cmds.h` is missing from the sources). -/
def S_DELAY : Nat := 0x40

/-- Modelled from the spec: set-maximum-return-packet-size opcode. -/
def S_MRPS : Nat := 0x41

/-- Modelled from the spec: read-1-byte opcode (reads of 1..8 bytes are the
eight consecutive codes starting here). -/
def S_DCS_READ1 : Nat := 0x42

/-- Modelled from the spec: read-8-bytes opcode. -/
def S_DCS_READ8 : Nat := 0x49

/-- Modelled from the spec: length-prefixed write opcode. -/
def S_DCS_LENGTH : Nat := 0x4a

/-- Modelled from the spec: buffered-write opcode (sends the staged buffer). -/
def S_DCS_BUF : Nat := 0x4b

/-- Modelled from the spec: field-patch with a 32-bit constant source. -/
def S_CONST : Nat := 0x4c

/-- Modelled from the spec: field-patch source selectors for the eight
computed timing quantities.  The spec states that selectors inside the
`S_CONST..S_VFP` range that match none of the eight are possible and
non-fatal, so the range contains a reserved value (0x54). -/
def S_HSYNC : Nat := 0x4d

/-- Modelled from the spec: horizontal back porch selector. -/
def S_HBP : Nat := 0x4e

/-- Modelled from the spec: horizontal active pixels selector. -/
def S_HACTIVE : Nat := 0x4f

/-- Modelled from the spec: horizontal front porch selector. -/
def S_HFP : Nat := 0x50

/-- Modelled from the spec: vertical sync width selector. -/
def S_VSYNC : Nat := 0x51

/-- Modelled from the spec: vertical back porch selector. -/
def S_VBP : Nat := 0x52

/-- Modelled from the spec: vertical active lines selector. -/
def S_VACTIVE : Nat := 0x53

/-- Modelled from the spec: vertical front porch selector, the top of the
field-patch opcode range. -/
def S_VFP : Nat := 0x55

/-- Modelled from the spec: lane-gate opcode for "1 lane required" (the four
lane gates are consecutive raw byte values, tested before the generic bit is
masked off). -/
def S_IF_1_LANE : Nat := 0x60

/-- Modelled from the spec: lane-gate opcode for "4 lanes required". -/
def S_IF_4_LANES : Nat := 0x63

/-- Transport selector `TYPE_MIPI`. -/
def TYPE_MIPI : Nat := 0

/-- Transport selector `TYPE_I2C`. -/
def TYPE_I2C : Nat := 1

/-- Transport selector `TYPE_SPI`. -/
def TYPE_SPI : Nat := 2

/-- The negotiated display timing (`struct drm_display_mode` fields used by
the field patcher). -/
structure DisplayMode where
  hdisplay : Nat
  hsync_start : Nat
  hsync_end : Nat
  htotal : Nat
  vdisplay : Nat
  vsync_start : Nat
  vsync_end : Nat
  vtotal : Nat
  deriving DecidableEq, Repr

/-- The computed-quantity switch of the field-patch branch: the eight known
selectors yield timing differences, any other selector yields 0 (logged as
an unknown selector, not fatal). -/
def scmdVal (dm : DisplayMode) (scmd : Nat) : Nat :=
  if scmd = S_HSYNC then dm.hsync_end - dm.hsync_start
  else if scmd = S_HBP then dm.htotal - dm.hsync_end
  else if scmd = S_HACTIVE then dm.hdisplay
  else if scmd = S_HFP then dm.hsync_start - dm.hdisplay
  else if scmd = S_VSYNC then dm.vsync_end - dm.vsync_start
  else if scmd = S_VBP then dm.vtotal - dm.vsync_end
  else if scmd = S_VACTIVE then dm.vdisplay
  else if scmd = S_VFP then dm.vsync_start - dm.vdisplay
  else 0

/-- The field-patch loop: write `dest_len` bits of `val` into the staged
buffer starting at bit `dest_start`, least-significant-bit-first within each
addressed byte, one destination byte per iteration (`8 - dest_start % 8`
bits each time).  One fuel unit per iteration; 33 iterations is an upper
bound, so the fuel of 40 used at the call sites never runs out. -/
def fieldPatch (fuel : Nat) (cbuf : List Nat) (dest_start dest_len val : Nat) :
    List Nat :=
  match fuel with
  | 0 => cbuf
  | fuel + 1 =>
    if dest_len = 0 ∨ ¬ dest_start < 256 then cbuf
    else
      let l := dest_start &&& 7
      let mask := if dest_len < 8 then (1 <<< dest_len) - 1 else 0xff
      let i := dest_start >>> 3
      let b0 := cbuf.getD i 0
      let b1 := b0 &&& (0xff ^^^ ((mask <<< l) &&& 0xff))
      let b2 := (b1 ||| ((val <<< l) &&& 0xff)) % 256
      let cbuf' := cbuf.set i b2
      let adv := 8 - l
      fieldPatch fuel cbuf' (dest_start + adv)
        (if dest_len ≥ adv then dest_len - adv else 0) (val >>> adv)

/-- Result of dispatching one decoded instruction: continue with the updated
decode state, break out of the loop, or return early with a fault.  `mm`
records whether this step set the pending `match = -EINVAL` (verification
mismatch or unknown opcode). -/
inductive Step where
  | next (cmd : List Nat) (length : Nat) (skip : Bool) (mm : Bool)
      (cbuf : List Nat) (st : St)
  | stop (mm : Bool) (st : St)
  | fault (r : Int) (st : St)
  deriving Repr

/-- The shared bottom of the interpreter loop body: a negative dispatch
status returns it immediately; an instruction whose declared length exceeds
the remaining stream breaks out; otherwise the stream advances past the
payload, stops if exhausted, and the skip flag is cleared. -/
def finishStep (cmd : List Nat) (length : Nat) (mm : Bool) (cbuf : List Nat)
    (st : St) (ret : Int) (len : Nat) : Step :=
  if ret < 0 then .fault ret st
  else if length < len then .stop mm st
  else if length - len = 0 then .stop mm st
  else .next (cmd.drop len) (length - len) false mm cbuf st

/-- Dispatch of a write payload to the selected transport (the `!skip` guard
of the write branch): two-wire write with retry, SPI via the 9-bit packer or
verbatim copy-and-send, or a generic/DCS packet write. -/
def dispatchWrite (env : Env) (ty generic : Nat) (skip : Bool) (p : List Nat)
    (st : St) : St × Int :=
  if skip then (st, 0)
  else if ty = TYPE_I2C then simple_i2c_write env st p
  else if ty = TYPE_SPI then
    if st.spi_9bit then store_9bit env st p
    else if p.length < 63 then
      spi_send env { st with tx_buf := overwrite st.tx_buf p,
                             spi_bits := p.length * 8 } false
    else (st, -22)
  else if generic ≠ 0 then
    let r := env.genWriteRet st.nGenW
    ({ st with nGenW := st.nGenW + 1,
               trace := st.trace ++ [Ev.genWrite p r] }, r)
  else
    let r := env.dcsWriteRet st.nDcsW
    ({ st with nDcsW := st.nDcsW + 1,
               trace := st.trace ++ [Ev.dcsWrite p r] }, r)

/-- Dispatch of a read instruction: two-wire combined transaction, SPI
(pack the command, clock out `8 * rdLen` high bits, full-duplex transfer,
extract the response), or a generic/DCS read with a single retry when the
transport reports `-EPROTO` (-71).  The generic read's final status is
discarded (forced to 0) by the code; the DCS read's is kept.  Returns the
state, the dispatch status and the `rdLen` fetched bytes. -/
def dispatchRead (env : Env) (ty generic rdLen match_index : Nat)
    (cmd : List Nat) (st : St) : St × Int × List Nat :=
  if ty = TYPE_I2C then simple_i2c_read env st (cmd.take match_index) rdLen
  else if ty = TYPE_SPI then
    let stA :=
      if st.spi_9bit then
        (store_9bit env (spi_send env st false).1 (cmd.take match_index)).1
      else { st with tx_buf := overwrite st.tx_buf (cmd.take match_index),
                     spi_bits := match_index * 8 }
    let l := stA.spi_bits
    let stB := (store_high stA (rdLen * 8)).1
    let sr := spi_send env stB true
    (sr.1, sr.2, extract_data rdLen sr.1.rx_buf l)
  else if generic ≠ 0 then
    let n1 := st.nGenR
    let r1 := env.genReadRet n1
    let st1 := { st with nGenR := n1 + 1,
                         trace := st.trace ++ [Ev.genRead (cmd.headD 0) (cmd.tail.headD 0) rdLen r1] }
    if r1 = -71 then
      let n2 := st1.nGenR
      let r2 := env.genReadRet n2
      let st2 := { st1 with nGenR := n2 + 1,
                            trace := st1.trace ++ [Ev.genRead (cmd.headD 0) (cmd.tail.headD 0) rdLen r2] }
      (st2, 0, if r2 < 0 then List.replicate rdLen 0 else padTo rdLen (env.genReadData n2))
    else (st1, 0, if r1 < 0 then List.replicate rdLen 0 else padTo rdLen (env.genReadData n1))
  else
    let n1 := st.nDcsR
    let r1 := env.dcsReadRet n1
    let st1 := { st with nDcsR := n1 + 1,
                         trace := st.trace ++ [Ev.dcsRead (cmd.headD 0) rdLen r1] }
    if r1 = -71 then
      let n2 := st1.nDcsR
      let r2 := env.dcsReadRet n2
      let st2 := { st1 with nDcsR := n2 + 1,
                            trace := st1.trace ++ [Ev.dcsRead (cmd.headD 0) rdLen r2] }
      (st2, r2, if r2 < 0 then List.replicate rdLen 0 else padTo rdLen (env.dcsReadData n2))
    else (st1, r1, if r1 < 0 then List.replicate rdLen 0 else padTo rdLen (env.dcsReadData n1))

/-- Little-endian numeric value of a byte list (the `readval`/`matchval`
accumulation `v |= byte[i] << (8*i)`). -/
def leVal (l : List Nat) : Nat :=
  l.foldr (fun b acc => b + 256 * acc) 0

/-- The write branch of the interpreter loop (direct, length-prefixed or
buffered write). -/
def stepWrite (env : Env) (ty generic len : Nat) (cmd : List Nat)
    (length : Nat) (skip : Bool) (cbuf : List Nat) (st : St) : Step :=
  if len = S_DCS_LENGTH then
    let len2 := cmd.headD 0
    let cmd1 := cmd.tail
    let length1 := length - 1
    if length1 < len2 then .stop false st
    else
      let r := dispatchWrite env ty generic skip (cmd1.take len2) st
      finishStep cmd1 length1 false cbuf r.1 r.2 len2
  else if len = S_DCS_BUF then
    let l2 := min (cmd.headD 0) 32
    let r := dispatchWrite env ty generic skip (cbuf.take l2) st
    finishStep cmd.tail (length - 1) false cbuf r.1 r.2 0
  else
    if length < len then .stop false st
    else
      let r := dispatchWrite env ty generic skip (cmd.take len) st
      finishStep cmd length false cbuf r.1 r.2 len

/-- The set-maximum-return-packet-size branch (only the command interface
dispatches it; note it is not guarded by the skip flag). -/
def stepMrps (env : Env) (ty : Nat) (cmd : List Nat) (length : Nat)
    (cbuf : List Nat) (st : St) : Step :=
  if ty = TYPE_MIPI then
    let r := env.mrpsRet st.nMrps
    let st1 := { st with nMrps := st.nMrps + 1,
                         trace := st.trace ++ [Ev.mrpsCall (cmd.headD 0) r] }
    finishStep cmd length false cbuf st1 r 1
  else finishStep cmd length false cbuf st 0 1

/-- The read branch: dispatch the read (unless skipped), then compare the
fetched bytes against the expected bytes embedded in the stream as
little-endian numbers, recording a mismatch. -/
def stepRead (env : Env) (ty generic len : Nat) (cmd : List Nat)
    (length : Nat) (skip : Bool) (cbuf : List Nat) (st : St) : Step :=
  let rdLen := len - S_DCS_READ1 + 1
  let match_index := if generic ≠ 0 then 2 else 1
  if skip then finishStep cmd length false cbuf st 0 (rdLen + match_index)
  else
    let r := dispatchRead env ty generic rdLen match_index cmd st
    let readval := leVal r.2.2
    let matchval := leVal (padTo rdLen ((cmd.drop match_index).take rdLen))
    finishStep cmd length (decide (readval ≠ matchval)) cbuf r.1 r.2.1
      (rdLen + match_index)

/-- The delay branch: flush the SPI buffer (SPI transport only) and sleep,
unless skipped; the millisecond byte is consumed by the branch itself. -/
def stepDelay (env : Env) (ty : Nat) (cmd : List Nat) (length : Nat)
    (skip : Bool) (cbuf : List Nat) (st : St) : Step :=
  let st1 :=
    if skip then st
    else
      let stF := if ty = TYPE_SPI then (spi_send env st false).1 else st
      { stF with trace := stF.trace ++ [Ev.sleepEv (cmd.headD 0)] }
  if length ≤ 1 then .stop false st1
  else .next (cmd.drop 1) (length - 1) false false cbuf st1

/-- The field-patch branch: decode the destination bit range and the source
value (a 32-bit little-endian constant for `S_CONST`, otherwise a computed
timing quantity right-shifted by the `src_start` byte), then patch the
staged buffer.  Not guarded by the skip flag. -/
def stepPatch (dm : DisplayMode) (len : Nat) (cmd : List Nat) (length : Nat)
    (cbuf : List Nat) (st : St) : Step :=
  let dest_start := cmd.headD 0
  let dest_len := cmd.tail.headD 0
  let val :=
    if len = S_CONST then
      cmd.getD 2 0 ||| (cmd.getD 3 0 <<< 8) ||| (cmd.getD 4 0 <<< 16) |||
        (cmd.getD 5 0 <<< 24)
    else (scmdVal dm len) >>> (cmd.getD 2 0)
  let len2 := if len = S_CONST then 6 else 3
  let cbuf1 := fieldPatch 40 cbuf dest_start dest_len val
  finishStep cmd length false cbuf1 st 0 len2

/-- One iteration of the `send_cmd_list` while loop: consume the opcode
byte, stop if the stream is exhausted, handle a lane gate, otherwise decode
the instruction class from the opcode ranges and dispatch to the branch. -/
def stepInstr (env : Env) (dm : DisplayMode) (ty lanes : Nat) (cmd : List Nat)
    (length : Nat) (skip : Bool) (cbuf : List Nat) (st : St) : Step :=
  let lenB := cmd.headD 0
  let cmd1 := cmd.tail
  let length1 := length - 1
  if length1 = 0 then .stop false st
  else if S_IF_1_LANE ≤ lenB ∧ lenB ≤ S_IF_4_LANES then
    .next cmd1 length1 (if 1 + lenB - S_IF_1_LANE ≠ lanes then true else skip)
      false cbuf st
  else
    let generic := lenB &&& 0x80
    let len := lenB &&& 0x7f
    if len < S_DELAY ∨ len = S_DCS_LENGTH ∨ len = S_DCS_BUF then
      stepWrite env ty generic len cmd1 length1 skip cbuf st
    else if len = S_MRPS then stepMrps env ty cmd1 length1 cbuf st
    else if S_DCS_READ1 ≤ len ∧ len ≤ S_DCS_READ8 then
      stepRead env ty generic len cmd1 length1 skip cbuf st
    else if len = S_DELAY then stepDelay env ty cmd1 length1 skip cbuf st
    else if S_CONST ≤ len ∧ len ≤ S_VFP then
      stepPatch dm len cmd1 length1 cbuf st
    else .stop true st

/-- Loop exit: the loop either fell out of the `while` (break / stream
exhausted), carrying whether a pending `-EINVAL` match was set, or executed
an early `return ret` on a dispatch fault. -/
inductive LoopOut where
  | brk (mm : Bool)
  | early (r : Int)
  deriving DecidableEq, Repr

/-- The `send_cmd_list` while loop: repeatedly run `stepInstr`, accumulating
the pending-mismatch flag.  One fuel unit per iteration; every iteration
consumes at least one stream byte, so fuel `length + 1` is always enough. -/
def cmdLoop (env : Env) (dm : DisplayMode) (ty lanes : Nat) : Nat →
    List Nat → Nat → Bool → Bool → List Nat → St → St × LoopOut
  | 0, _, _, _, mm, _, st => (st, .brk mm)
  | fuel + 1, cmd, length, skip, mm, cbuf, st =>
    match stepInstr env dm ty lanes cmd length skip cbuf st with
    | .next cmd' length' skip' mm' cbuf' st' =>
        cmdLoop env dm ty lanes fuel cmd' length' skip' (mm || mm') cbuf' st'
    | .stop mm' st' => (st', .brk (mm || mm'))
    | .fault r st' => (st', .early r)

/-- The tail of `send_cmd_list`: an early `return ret` propagates the fault;
falling out of the loop with no pending mismatch flushes the SPI transport
(its status becoming the result), while a pending mismatch yields `-EINVAL`
(-22). -/
def sendFinish (env : Env) (ty : Nat) (r : St × LoopOut) : St × Int :=
  match r.2 with
  | .early e => (r.1, e)
  | .brk mm =>
    if ¬ mm ∧ ty = TYPE_SPI then spi_send env r.1 false
    else (r.1, if mm then -22 else 0)

/-- `send_cmd_list`: run one command stream against transport `ty` with the
given active lane count and staged buffer contents.  An empty stream is a
no-op returning 0; otherwise the SPI bit accumulator is reset, the loop
runs, and `sendFinish` maps the loop exit to the stream's result. -/
def send_cmd_list (env : Env) (dm : DisplayMode) (ty lanes : Nat)
    (cmds : List Nat) (cbuf : List Nat) (st : St) : St × Int :=
  if cmds.length = 0 then (st, 0)
  else
    sendFinish env ty (cmdLoop env dm ty lanes (cmds.length + 1) cmds
      cmds.length false false cbuf { st with spi_bits := 0 })

/-- The byte sequence a flush (`spi_send`) transmits from a given state:
the first `(spi_bits + 7) / 8` bytes of the transmit buffer. -/
def flushedBytes (st : St) : List Nat :=
  st.tx_buf.take ((st.spi_bits + 7) >>> 3)

/-- Bit `b` of the staged output buffer, bits counted least-significant-first
within each addressed byte (the convention `send_cmd_list`'s patch loop
implements: a patch at `dest_start` begins at bit `dest_start % 8` of byte
`dest_start / 8`, counted from the least significant bit). -/
def bitL (buf : List Nat) (b : Nat) : Bool :=
  (buf.getD (b / 8) 0).testBit (b % 8)

/-- An environment in which every transport call succeeds with status 0 and
every read fetches zero bytes. -/
def envZero : Env where
  i2cRet := fun _ => 0
  i2cData := fun _ => []
  genWriteRet := fun _ => 0
  dcsWriteRet := fun _ => 0
  mrpsRet := fun _ => 0
  genReadRet := fun _ => 0
  genReadData := fun _ => []
  dcsReadRet := fun _ => 0
  dcsReadData := fun _ => []
  spiRet := fun _ => 0
  spiData := fun _ => []

/-- A fresh panel state with a 9-bit SPI device: zeroed buffers, empty bit
accumulator, no events. -/
def stSpi9 : St where
  tx_buf := List.replicate 63 0
  rx_buf := List.replicate 63 0
  spi_bits := 0
  spiPresent := true
  spi_9bit := true
  trace := []
  nI2c := 0
  nGenW := 0
  nDcsW := 0
  nMrps := 0
  nGenR := 0
  nDcsR := 0
  nSpi := 0

/-- A fresh panel state with no SPI device (used for the two-wire and
command-interface streams). -/
def stPlain : St :=
  { stSpi9 with spiPresent := false, spi_9bit := false }

/-- A concrete display timing for instantiations. -/
def dmTest : DisplayMode where
  hdisplay := 800
  hsync_start := 810
  hsync_end := 820
  htotal := 830
  vdisplay := 480
  vsync_start := 484
  vsync_end := 490
  vtotal := 500

/-- A zeroed 32-byte staged output buffer. -/
def cbufZero : List Nat := List.replicate 32 0

/-- Environment whose first two-wire transfer attempt fails with `-EIO` and
all later attempts succeed. -/
def envI2cFail1 : Env :=
  { envZero with i2cRet := fun n => if n = 0 then -5 else 0 }

/-- Environment whose DCS reads always fetch the single byte `d`. -/
def envDcsData (d : Nat) : Env :=
  { envZero with dcsReadData := fun _ => [d] }

/-- Environment whose generic reads always fail with `-EPROTO`. -/
def envGenEproto : Env :=
  { envZero with genReadRet := fun _ => -71 }

/-- Environment whose DCS reads always fail with `-EPROTO`. -/
def envDcsEproto : Env :=
  { envZero with dcsReadRet := fun _ => -71 }

/-! ## Small arithmetic lemmas -/

theorem and_0x7f_eq (x : Nat) (h : x < 0x80) : x &&& 0x7f = x := by
  apply Nat.eq_of_testBit_eq
  intro i
  rw [Nat.testBit_and]
  rcases lt_or_ge i 7 with hi | hi
  · have h7 : (0x7f : Nat).testBit i = true := by interval_cases i <;> decide
    simp [h7]
  · have hx : x.testBit i = false := by
      refine Nat.testBit_lt_two_pow (lt_of_lt_of_le h ?_)
      have e : (0x80 : Nat) = 2 ^ 7 := by norm_num
      rw [e]
      exact Nat.pow_le_pow_right (by norm_num) hi
    simp [hx]

theorem and_0x80_eq (x : Nat) (h : x < 0x80) : x &&& 0x80 = 0 := by
  apply Nat.eq_of_testBit_eq
  intro i
  rw [Nat.testBit_and, Nat.zero_testBit]
  rcases lt_or_ge i 7 with h7 | h7
  · have : (0x80 : Nat).testBit i = false := by interval_cases i <;> decide
    simp [this]
  · have hx : x.testBit i = false := by
      refine Nat.testBit_lt_two_pow (lt_of_lt_of_le h ?_)
      have e : (0x80 : Nat) = 2 ^ 7 := by norm_num
      rw [e]
      exact Nat.pow_le_pow_right (by norm_num) h7
    simp [hx]

/-! ## Loop-control lemmas for the interpreter -/

theorem finishStep_next_le (cmd : List Nat) (length : Nat) (mm : Bool)
    (cbuf : List Nat) (st : St) (ret : Int) (len : Nat)
    (c' : List Nat) (l' : Nat) (s' m' : Bool) (cb' : List Nat) (st' : St)
    (h : finishStep cmd length mm cbuf st ret len = .next c' l' s' m' cb' st') :
    l' ≤ length ∧ l' ≠ 0 := by
  unfold finishStep at h
  split at h
  · exact Step.noConfusion h
  · split at h
    · exact Step.noConfusion h
    · split at h
      · exact Step.noConfusion h
      · rename_i h1 h2 h3
        injection h with e1 e2
        omega

theorem stepWrite_next_le (env : Env) (ty generic len : Nat) (cmd : List Nat)
    (length : Nat) (skip : Bool) (cbuf : List Nat) (st : St)
    (c' : List Nat) (l' : Nat) (s' m' : Bool) (cb' : List Nat) (st' : St)
    (h : stepWrite env ty generic len cmd length skip cbuf st = .next c' l' s' m' cb' st') :
    l' ≤ length := by
  unfold stepWrite at h
  dsimp only [] at h
  split at h
  · split at h
    · exact Step.noConfusion h
    · have := finishStep_next_le _ _ _ _ _ _ _ _ _ _ _ _ _ h
      omega
  · split at h
    · have := finishStep_next_le _ _ _ _ _ _ _ _ _ _ _ _ _ h
      omega
    · split at h
      · exact Step.noConfusion h
      · have := finishStep_next_le _ _ _ _ _ _ _ _ _ _ _ _ _ h
        omega

theorem stepMrps_next_le (env : Env) (ty : Nat) (cmd : List Nat) (length : Nat)
    (cbuf : List Nat) (st : St)
    (c' : List Nat) (l' : Nat) (s' m' : Bool) (cb' : List Nat) (st' : St)
    (h : stepMrps env ty cmd length cbuf st = .next c' l' s' m' cb' st') :
    l' ≤ length := by
  unfold stepMrps at h
  dsimp only [] at h
  split at h
  · have := finishStep_next_le _ _ _ _ _ _ _ _ _ _ _ _ _ h
    omega
  · have := finishStep_next_le _ _ _ _ _ _ _ _ _ _ _ _ _ h
    omega

theorem stepRead_next_le (env : Env) (ty generic len : Nat) (cmd : List Nat)
    (length : Nat) (skip : Bool) (cbuf : List Nat) (st : St)
    (c' : List Nat) (l' : Nat) (s' m' : Bool) (cb' : List Nat) (st' : St)
    (h : stepRead env ty generic len cmd length skip cbuf st = .next c' l' s' m' cb' st') :
    l' ≤ length := by
  unfold stepRead at h
  dsimp only [] at h
  split at h
  · have := finishStep_next_le _ _ _ _ _ _ _ _ _ _ _ _ _ h
    omega
  · have := finishStep_next_le _ _ _ _ _ _ _ _ _ _ _ _ _ h
    omega

theorem stepDelay_next_le (env : Env) (ty : Nat) (cmd : List Nat) (length : Nat)
    (skip : Bool) (cbuf : List Nat) (st : St)
    (c' : List Nat) (l' : Nat) (s' m' : Bool) (cb' : List Nat) (st' : St)
    (h : stepDelay env ty cmd length skip cbuf st = .next c' l' s' m' cb' st') :
    l' ≤ length := by
  unfold stepDelay at h
  dsimp only [] at h
  split at h
  · exact Step.noConfusion h
  · injection h with e1 e2
    omega

theorem stepPatch_next_le (dm : DisplayMode) (len : Nat) (cmd : List Nat)
    (length : Nat) (cbuf : List Nat) (st : St)
    (c' : List Nat) (l' : Nat) (s' m' : Bool) (cb' : List Nat) (st' : St)
    (h : stepPatch dm len cmd length cbuf st = .next c' l' s' m' cb' st') :
    l' ≤ length := by
  unfold stepPatch at h
  dsimp only [] at h
  have := finishStep_next_le _ _ _ _ _ _ _ _ _ _ _ _ _ h
  omega

theorem stepInstr_next_lt (env : Env) (dm : DisplayMode) (ty lanes : Nat)
    (cmd : List Nat) (length : Nat) (skip : Bool) (cbuf : List Nat) (st : St)
    (c' : List Nat) (l' : Nat) (s' m' : Bool) (cb' : List Nat) (st' : St)
    (h : stepInstr env dm ty lanes cmd length skip cbuf st = .next c' l' s' m' cb' st') :
    l' < length := by
  unfold stepInstr at h
  dsimp only [] at h
  split at h
  · exact Step.noConfusion h
  · rename_i htop
    split at h
    · injection h with e1 e2
      omega
    · split at h
      · have := stepWrite_next_le _ _ _ _ _ _ _ _ _ _ _ _ _ _ _ h
        omega
      · split at h
        · have := stepMrps_next_le _ _ _ _ _ _ _ _ _ _ _ _ h
          omega
        · split at h
          · have := stepRead_next_le _ _ _ _ _ _ _ _ _ _ _ _ _ _ _ h
            omega
          · split at h
            · have := stepDelay_next_le _ _ _ _ _ _ _ _ _ _ _ _ _ h
              omega
            · split at h
              · have := stepPatch_next_le _ _ _ _ _ _ _ _ _ _ _ _ h
                omega
              · exact Step.noConfusion h

theorem cmdLoop_congr_fuel (env : Env) (dm : DisplayMode) (ty lanes : Nat) :
    ∀ (f1 f2 : Nat) (cmd : List Nat) (length : Nat) (skip mm : Bool)
      (cbuf : List Nat) (st : St), length < f1 → length < f2 →
      cmdLoop env dm ty lanes f1 cmd length skip mm cbuf st =
        cmdLoop env dm ty lanes f2 cmd length skip mm cbuf st := by
  intro f1
  induction f1 with
  | zero => intro f2 cmd length skip mm cbuf st h1 h2; omega
  | succ f1 ih =>
    intro f2 cmd length skip mm cbuf st h1 h2
    match f2, h2 with
    | f2 + 1, h2 =>
      show (match stepInstr env dm ty lanes cmd length skip cbuf st with
            | .next cmd' length' skip' mm' cbuf' st' =>
                cmdLoop env dm ty lanes f1 cmd' length' skip' (mm || mm') cbuf' st'
            | .stop mm' st' => (st', .brk (mm || mm'))
            | .fault r st' => (st', .early r)) =
           (match stepInstr env dm ty lanes cmd length skip cbuf st with
            | .next cmd' length' skip' mm' cbuf' st' =>
                cmdLoop env dm ty lanes f2 cmd' length' skip' (mm || mm') cbuf' st'
            | .stop mm' st' => (st', .brk (mm || mm'))
            | .fault r st' => (st', .early r))
      cases hs : stepInstr env dm ty lanes cmd length skip cbuf st with
      | next c' l' s' m' cb' st' =>
        have hl := stepInstr_next_lt env dm ty lanes cmd length skip cbuf st
          c' l' s' m' cb' st' hs
        exact ih f2 c' l' s' (mm || m') cb' st' (by omega) (by omega)
      | stop m' st' => rfl
      | fault r st' => rfl

theorem cmdLoop_succ (env : Env) (dm : DisplayMode) (ty lanes fuel : Nat)
    (cmd : List Nat) (length : Nat) (skip mm : Bool) (cbuf : List Nat) (st : St) :
    cmdLoop env dm ty lanes (fuel + 1) cmd length skip mm cbuf st =
      match stepInstr env dm ty lanes cmd length skip cbuf st with
      | .next cmd' length' skip' mm' cbuf' st' =>
          cmdLoop env dm ty lanes fuel cmd' length' skip' (mm || mm') cbuf' st'
      | .stop mm' st' => (st', .brk (mm || mm'))
      | .fault r st' => (st', .early r) := rfl

theorem send_cmd_list_cons (env : Env) (dm : DisplayMode) (ty lanes b : Nat)
    (rest : List Nat) (cbuf : List Nat) (st : St) :
    send_cmd_list env dm ty lanes (b :: rest) cbuf st =
      sendFinish env ty
        (match stepInstr env dm ty lanes (b :: rest) (rest.length + 1) false cbuf
            { st with spi_bits := 0 } with
         | .next c' l' s' m' cb' st' =>
             cmdLoop env dm ty lanes (rest.length + 1) c' l' s' m' cb' st'
         | .stop m' st' => (st', .brk m')
         | .fault e st' => (st', .early e)) := by
  unfold send_cmd_list
  rw [if_neg (by simp)]
  rw [List.length_cons]
  rw [cmdLoop_succ]
  congr 1

/-! ## C4: field patch framing -/

/-- C4 (counterexample): the claim addresses bits most-significant-bit-first
within each byte; under that convention the patch `dest_start=4, dest_len=12,
val=0xABC` on an all-0xFF staged buffer must leave bits 0..4 untouched, but
bit 2 of the patched buffer differs from bit 2 of the original (the code
places value bits starting at the least significant end of byte 0's high
nibble). -/
theorem c4_msb_addressing_false :
    ¬ (bufBit (fieldPatch 40 (List.replicate 32 0xff) 4 12 0xABC) 2 =
        bufBit (List.replicate 32 0xff) 2) := by decide

/-- C4 (amended): the patch loop addresses bits least-significant-bit-first
within each addressed byte; under that convention a FieldPatch with
`dest_len = 12`, `dest_start = 4` and constant source `0xABC` on a staged
buffer pre-filled with 0xFF changes exactly bits 4..16 (which receive the
low 12 bits of 0xABC in order) and leaves bits 0..4 and 16.. unchanged. -/
theorem c4_fieldPatch_lsb_exact :
    fieldPatch 40 (List.replicate 32 0xff) 4 12 0xABC =
      0xcf :: 0xab :: List.replicate 30 0xff ∧
    (∀ b, b < 256 →
      bitL (fieldPatch 40 (List.replicate 32 0xff) 4 12 0xABC) b =
        if 4 ≤ b ∧ b < 16 then Nat.testBit 0xABC (b - 4)
        else bitL (List.replicate 32 0xff) b) := by
  constructor
  · decide
  · decide

/-- C4 (witness): the amended statement applied at bit 5, which receives bit
1 of 0xABC. -/
theorem c4_fieldPatch_lsb_exact_witness :
    bitL (fieldPatch 40 (List.replicate 32 0xff) 4 12 0xABC) 5 =
      if 4 ≤ 5 ∧ 5 < 16 then Nat.testBit 0xABC (5 - 4)
      else bitL (List.replicate 32 0xff) 5 :=
  c4_fieldPatch_lsb_exact.2 5 (by decide)

/-! ## C6: truncated stream handling -/

/-- C6 (counterexample): the stream `[5, 0xAA]` declares a 5-byte write with
only one payload byte remaining; the interpreter does stop there (no
transport call is in the trace), but the overall result is 0 (success), not
an error as the claim requires. -/
theorem c6_truncated_result_success :
    (send_cmd_list envZero dmTest TYPE_MIPI 4 [5, 0xAA] cbufZero stPlain).2 = 0 ∧
    (send_cmd_list envZero dmTest TYPE_MIPI 4 [5, 0xAA] cbufZero stPlain).1.trace = [] := by
  constructor
  · decide
  · decide

/-- C6 (amended): a truncated instruction stops the processing of the
stream, but it is not an error of its own.  (a) The shared loop bottom
breaks out with the pending verification state and the panel state
unchanged when the declared payload exceeds the remaining stream; (b) a
truncated direct write is caught before its transport call, the state
untouched; (c) a truncated read is caught only after its transport call has
already been dispatched (the trace grows by the read event before the
stop); (d) a stopping step makes the loop break with the accumulated
pending state, never with an error; and the break maps to the stream's
result as (e) pending mismatch → `-EINVAL`, (f) clean break → 0 off the
SPI transport, (g) clean break → the final flush's status on SPI. -/
theorem c6_truncation_nonfatal (env : Env) (ty : Nat) (d c : Nat) (st : St)
    (cbuf : List Nat)
    (hr : env.dcsReadRet st.nDcsR = 0)
    (hdat : env.dcsReadData st.nDcsR = [d]) :
    (∀ (cmd : List Nat) (length : Nat) (mm : Bool) (cb : List Nat) (s : St)
        (ret : Int) (len : Nat), 0 ≤ ret → length < len →
      finishStep cmd length mm cb s ret len = .stop mm s) ∧
    (∀ (generic len : Nat) (cmd : List Nat) (length : Nat) (skip : Bool)
        (cb : List Nat) (s : St), len ≠ S_DCS_LENGTH → len ≠ S_DCS_BUF →
        length < len →
      stepWrite env ty generic len cmd length skip cb s = .stop false s) ∧
    (stepRead env TYPE_MIPI 0 S_DCS_READ1 [c] 1 false cbuf st =
      .stop (decide (d ≠ 0))
        { st with nDcsR := st.nDcsR + 1,
                  trace := st.trace ++ [Ev.dcsRead c 1 0] }) ∧
    (∀ (dm : DisplayMode) (lanes fuel : Nat) (cmd : List Nat) (length : Nat)
        (skip mm mm' : Bool) (cb : List Nat) (s s' : St),
      stepInstr env dm ty lanes cmd length skip cb s = .stop mm' s' →
      cmdLoop env dm ty lanes (fuel + 1) cmd length skip mm cb s =
        (s', .brk (mm || mm'))) ∧
    (∀ s : St, sendFinish env ty (s, .brk true) = (s, -22)) ∧
    (ty ≠ TYPE_SPI → ∀ s : St, sendFinish env ty (s, .brk false) = (s, 0)) ∧
    (∀ s : St, sendFinish env TYPE_SPI (s, .brk false) = spi_send env s false) := by
  refine ⟨?_, ?_, ?_, ?_, fun s => rfl, ?_, fun s => rfl⟩
  · intro cmd length mm cb s ret len h1 h2
    unfold finishStep
    rw [if_neg (by omega : ¬ ret < 0), if_pos h2]
  · intro generic len cmd length skip cb s h1 h2 h3
    unfold stepWrite
    rw [if_neg h1, if_neg h2, if_pos h3]
  · unfold stepRead
    dsimp only []
    rw [if_neg (show ¬ (false = true) from by decide)]
    unfold dispatchRead
    dsimp only []
    rw [if_neg (show ¬ (TYPE_MIPI = TYPE_I2C) from by decide),
      if_neg (show ¬ (TYPE_MIPI = TYPE_SPI) from by decide),
      if_neg (show ¬ ((0 : Nat) ≠ 0) from by decide)]
    rw [hr, hdat]
    rw [if_neg (show ¬ ((0 : Int) = -71) from by decide)]
    unfold finishStep
    dsimp only []
    rw [if_neg (show ¬ ((0 : Int) < 0) from by decide),
      if_pos (show (1 : Nat) < S_DCS_READ1 - S_DCS_READ1 + 1 +
        (if (0 : Nat) ≠ 0 then 2 else 1) from by decide)]
    rfl
  · intro dm lanes fuel cmd length skip mm mm' cb s s' hstep
    rw [cmdLoop_succ, hstep]
  · intro hty s
    unfold sendFinish
    dsimp only []
    rw [if_neg (by simp [hty])]
    rfl

/-- C6 (witness): the truncated 1-byte DCS read `[0x42, 0x0A]` (no expected
byte left in the stream) still dispatches its transport call, then stops;
a truncated direct write stops with the state untouched; a clean break off
the SPI transport maps to result 0. -/
theorem c6_truncation_nonfatal_witness :
    stepRead (envDcsData 5) TYPE_MIPI 0 S_DCS_READ1 [0x0A] 1 false cbufZero
        stPlain =
      .stop true { stPlain with nDcsR := 1,
                                trace := [Ev.dcsRead 0x0A 1 0] } ∧
    stepWrite (envDcsData 5) TYPE_MIPI 0 5 [0xAA] 1 false cbufZero stPlain =
      .stop false stPlain ∧
    sendFinish (envDcsData 5) TYPE_MIPI (stPlain, .brk false) =
      (stPlain, 0) := by
  have h := c6_truncation_nonfatal (envDcsData 5) TYPE_MIPI 5 0x0A stPlain
    cbufZero (by decide) (by decide)
  refine ⟨h.2.2.1, ?_, ?_⟩
  · exact h.2.1 0 5 [0xAA] 1 false cbufZero stPlain (by decide) (by decide)
      (by decide)
  · exact h.2.2.2.2.2.1 (by decide) stPlain

theorem dispatchWrite_skip (env : Env) (ty generic : Nat) (p : List Nat)
    (st : St) : dispatchWrite env ty generic true p st = (st, 0) := rfl

/-! ## C7: lane gating -/

/-- C7 (counterexample): a `LaneGate(required=2)` on a panel with 4 active
lanes sets the skip flag, but when the next instruction is
SetMaxReturnSize the transport call is still made (the MRPS branch is not
guarded by the skip flag), so "no transport call is made" for the skipped
instruction is false: the trace of this stream contains the MRPS call. -/
theorem c7_skipped_mrps_still_dispatches :
    (send_cmd_list envZero dmTest TYPE_MIPI 4 [0x61, S_MRPS, 7, 1, 0x33]
        cbufZero stPlain).1.trace = [Ev.mrpsCall 7 0, Ev.dcsWrite [0x33] 0] ∧
    Ev.mrpsCall 7 0 ∈ (send_cmd_list envZero dmTest TYPE_MIPI 4
        [0x61, S_MRPS, 7, 1, 0x33] cbufZero stPlain).1.trace := by
  constructor
  · decide
  · decide

/-- C7 (amended): a mismatching LaneGate sets the skip flag without touching
the state; a following write, read or delay instruction is then skipped —
its bytes are consumed to keep the stream position correct, no transport
call is made, no verification comparison is evaluated (the pending mismatch
state is unchanged), no sleep occurs, the panel state is untouched — and
the skip flag clears so the instruction after it executes normally.
However SetMaxReturnSize and FieldPatch are not guarded by the skip flag:
an MRPS following a mismatching gate still makes its transport call and a
skipped FieldPatch still patches the staged buffer (the skip flag clearing
afterwards in both cases). -/
theorem c7_lane_gate_semantics (env : Env) (dm : DisplayMode)
    (ty lanes fuel g wlen v ds dl v0 v1 v2 v3 : Nat) (rest : List Nat)
    (cbuf : List Nat) (st : St) (skip mm : Bool) :
    (S_IF_1_LANE ≤ g → g ≤ S_IF_4_LANES → rest.length ≠ 0 →
      cmdLoop env dm ty lanes (fuel + 1) (g :: rest) (rest.length + 1) skip mm cbuf st =
        cmdLoop env dm ty lanes fuel rest rest.length
          (if 1 + g - S_IF_1_LANE ≠ lanes then true else skip) mm cbuf st) ∧
    (1 ≤ wlen → wlen < S_DELAY → wlen < rest.length →
      cmdLoop env dm ty lanes (fuel + 1) (wlen :: rest) (rest.length + 1) true mm cbuf st =
        cmdLoop env dm ty lanes fuel (rest.drop wlen) (rest.length - wlen)
          false mm cbuf st) ∧
    (2 < rest.length →
      cmdLoop env dm ty lanes (fuel + 1) (S_DCS_READ1 :: rest)
          (rest.length + 1) true mm cbuf st =
        cmdLoop env dm ty lanes fuel (rest.drop 2) (rest.length - 2)
          false mm cbuf st) ∧
    (1 < rest.length →
      cmdLoop env dm ty lanes (fuel + 1) (S_DELAY :: rest)
          (rest.length + 1) true mm cbuf st =
        cmdLoop env dm ty lanes fuel (rest.drop 1) (rest.length - 1)
          false mm cbuf st) ∧
    (¬ env.mrpsRet st.nMrps < 0 → rest.length ≠ 0 →
      cmdLoop env dm TYPE_MIPI lanes (fuel + 1) (S_MRPS :: v :: rest)
          (rest.length + 2) true mm cbuf st =
        cmdLoop env dm TYPE_MIPI lanes fuel rest rest.length false mm cbuf
          { st with nMrps := st.nMrps + 1,
                    trace := st.trace ++ [Ev.mrpsCall v (env.mrpsRet st.nMrps)] }) ∧
    (rest.length ≠ 0 →
      cmdLoop env dm ty lanes (fuel + 1)
          (S_CONST :: ds :: dl :: v0 :: v1 :: v2 :: v3 :: rest)
          (rest.length + 7) true mm cbuf st =
        cmdLoop env dm ty lanes fuel rest rest.length false mm
          (fieldPatch 40 cbuf ds dl
            (v0 ||| v1 <<< 8 ||| v2 <<< 16 ||| v3 <<< 24)) st) := by
  refine ⟨?_, ?_, ?_, ?_, ?_, ?_⟩
  · intro h1 h2 hne
    have hstep : stepInstr env dm ty lanes (g :: rest) (rest.length + 1) skip cbuf st =
        .next rest rest.length (if 1 + g - S_IF_1_LANE ≠ lanes then true else skip)
          false cbuf st := by
      unfold stepInstr
      dsimp only []
      simp only [List.headD_cons, List.tail_cons, Nat.add_sub_cancel]
      rw [if_neg hne, if_pos ⟨h1, h2⟩]
    rw [cmdLoop_succ, hstep]
    simp
  · intro h1 h2 h3
    have hmask7f : wlen &&& 0x7f = wlen := by
      refine and_0x7f_eq wlen ?_
      unfold S_DELAY at h2
      omega
    have hstep : stepInstr env dm ty lanes (wlen :: rest) (rest.length + 1) true cbuf st =
        .next (rest.drop wlen) (rest.length - wlen) false false cbuf st := by
      unfold stepInstr stepWrite
      dsimp only []
      simp only [List.headD_cons, List.tail_cons, Nat.add_sub_cancel]
      rw [if_neg (by omega : ¬ rest.length = 0)]
      rw [if_neg (by unfold S_IF_1_LANE S_IF_4_LANES S_DELAY at *; omega)]
      rw [hmask7f]
      rw [if_pos (Or.inl h2)]
      rw [if_neg (by unfold S_DCS_LENGTH S_DELAY at *; omega)]
      rw [if_neg (by unfold S_DCS_BUF S_DELAY at *; omega)]
      rw [if_neg (by omega : ¬ rest.length < wlen)]
      rw [dispatchWrite_skip]
      unfold finishStep
      rw [if_neg (by norm_num : ¬ (0 : Int) < 0)]
      rw [if_neg (by omega : ¬ rest.length < wlen)]
      rw [if_neg (by omega : ¬ rest.length - wlen = 0)]
    rw [cmdLoop_succ, hstep]
    simp
  · intro h
    have hstep : stepInstr env dm ty lanes (S_DCS_READ1 :: rest)
        (rest.length + 1) true cbuf st =
        .next (rest.drop 2) (rest.length - 2) false false cbuf st := by
      unfold stepInstr stepRead finishStep
      simp +decide only [List.headD_cons, List.tail_cons, Nat.add_sub_cancel,
        S_IF_1_LANE, S_IF_4_LANES, S_DELAY, S_DCS_LENGTH, S_DCS_BUF, S_MRPS,
        S_DCS_READ1, S_DCS_READ8,
        show (66 : Nat) &&& 127 = 66 from by decide,
        show ¬ rest.length = 0 from by omega,
        show ¬ rest.length < 2 from by omega,
        show ¬ rest.length - 2 = 0 from by omega,
        show ¬ (0 : Int) < 0 from by norm_num, if_true, if_false]
    rw [cmdLoop_succ, hstep]
    simp
  · intro h
    have hstep : stepInstr env dm ty lanes (S_DELAY :: rest)
        (rest.length + 1) true cbuf st =
        .next (rest.drop 1) (rest.length - 1) false false cbuf st := by
      unfold stepInstr stepDelay
      simp +decide only [List.headD_cons, List.tail_cons, Nat.add_sub_cancel,
        S_IF_1_LANE, S_IF_4_LANES, S_DELAY, S_DCS_LENGTH, S_DCS_BUF, S_MRPS,
        S_DCS_READ1, S_DCS_READ8,
        show ¬ rest.length = 0 from by omega,
        show ¬ rest.length ≤ 1 from by omega, if_true, if_false]
    rw [cmdLoop_succ, hstep]
    simp
  · intro hr hne
    have hstep : stepInstr env dm TYPE_MIPI lanes (S_MRPS :: v :: rest)
        (rest.length + 2) true cbuf st =
        .next rest rest.length false false cbuf
          { st with nMrps := st.nMrps + 1,
                    trace := st.trace ++ [Ev.mrpsCall v (env.mrpsRet st.nMrps)] } := by
      unfold stepInstr stepMrps finishStep
      dsimp only []
      simp only [List.headD_cons, List.tail_cons]
      rw [if_neg (by omega : ¬ rest.length + 2 - 1 = 0)]
      rw [if_neg (by unfold S_IF_1_LANE S_IF_4_LANES S_MRPS; omega)]
      rw [show S_MRPS &&& 0x7f = S_MRPS from by decide]
      rw [if_neg (by unfold S_MRPS S_DELAY S_DCS_LENGTH S_DCS_BUF; omega)]
      rw [if_pos rfl]
      rw [if_pos trivial]
      rw [if_neg hr]
      rw [if_neg (by omega : ¬ rest.length + 2 - 1 < 1)]
      rw [if_neg (by omega : ¬ rest.length + 2 - 1 - 1 = 0)]
      simp
    rw [cmdLoop_succ, hstep]
    simp
  · intro hne
    have hstep : stepInstr env dm ty lanes
        (S_CONST :: ds :: dl :: v0 :: v1 :: v2 :: v3 :: rest)
        (rest.length + 7) true cbuf st =
        .next rest rest.length false false
          (fieldPatch 40 cbuf ds dl
            (v0 ||| v1 <<< 8 ||| v2 <<< 16 ||| v3 <<< 24)) st := by
      unfold stepInstr stepPatch finishStep
      simp +decide only [List.headD_cons, List.tail_cons, S_IF_1_LANE,
        S_IF_4_LANES, S_DELAY, S_DCS_LENGTH, S_DCS_BUF, S_MRPS, S_DCS_READ1,
        S_DCS_READ8, S_CONST, S_VFP,
        show ¬ rest.length + 7 - 1 = 0 from by omega,
        show ¬ rest.length + 7 - 1 < 6 from by omega,
        show ¬ rest.length + 7 - 1 - 6 = 0 from by omega,
        show rest.length + 7 - 1 - 6 = rest.length from by omega,
        show ¬ (0 : Int) < 0 from by norm_num, if_true, if_false,
        show List.drop 6 (ds :: dl :: v0 :: v1 :: v2 :: v3 :: rest) = rest
          from rfl,
        show (ds :: dl :: v0 :: v1 :: v2 :: v3 :: rest).getD 2 0 = v0 from rfl,
        show (ds :: dl :: v0 :: v1 :: v2 :: v3 :: rest).getD 3 0 = v1 from rfl,
        show (ds :: dl :: v0 :: v1 :: v2 :: v3 :: rest).getD 4 0 = v2 from rfl,
        show (ds :: dl :: v0 :: v1 :: v2 :: v3 :: rest).getD 5 0 = v3 from rfl,
        hne]
    rw [cmdLoop_succ, hstep]
    simp

/-- C7 (witness): the amended statement instantiated — lane gate `0x61`
(2 lanes required) on a 4-lane panel; a skipped 1-byte write, 1-byte read
and delay, each consuming its bytes without touching the state; a skipped
MRPS still calling the transport; and a skipped FieldPatch still patching
the staged buffer. -/
theorem c7_lane_gate_semantics_witness :
    cmdLoop envZero dmTest TYPE_MIPI 4 3 [0x61, 1, 0x33] 3 false false
        cbufZero stPlain =
      cmdLoop envZero dmTest TYPE_MIPI 4 2 [1, 0x33] 2
        (if 1 + 0x61 - S_IF_1_LANE ≠ 4 then true else false) false
        cbufZero stPlain ∧
    cmdLoop envZero dmTest TYPE_MIPI 4 3 [1, 0x33, 1, 0x44] 4 true false
        cbufZero stPlain =
      cmdLoop envZero dmTest TYPE_MIPI 4 2 [1, 0x44] 2 false false
        cbufZero stPlain ∧
    cmdLoop envZero dmTest TYPE_MIPI 4 5 [S_DCS_READ1, 0x0A, 0x0F, 1, 0x33] 5
        true false cbufZero stPlain =
      cmdLoop envZero dmTest TYPE_MIPI 4 4 [1, 0x33] 2 false false
        cbufZero stPlain ∧
    cmdLoop envZero dmTest TYPE_MIPI 4 4 [S_DELAY, 5, 1, 0x33] 4 true false
        cbufZero stPlain =
      cmdLoop envZero dmTest TYPE_MIPI 4 3 [1, 0x33] 2 false false
        cbufZero stPlain ∧
    cmdLoop envZero dmTest TYPE_MIPI 4 3 [S_MRPS, 7, 1, 0x33] 4 true false
        cbufZero stPlain =
      cmdLoop envZero dmTest TYPE_MIPI 4 2 [1, 0x33] 2 false false cbufZero
        { stPlain with nMrps := stPlain.nMrps + 1,
                       trace := stPlain.trace ++ [Ev.mrpsCall 7 (envZero.mrpsRet stPlain.nMrps)] } ∧
    cmdLoop envZero dmTest TYPE_MIPI 4 3
        [S_CONST, 0, 4, 0xAB, 0, 0, 0, 1, 0x33] 9 true false cbufZero
        stPlain =
      cmdLoop envZero dmTest TYPE_MIPI 4 2 [1, 0x33] 2 false false
        (fieldPatch 40 cbufZero 0 4
          (0xAB ||| 0 <<< 8 ||| 0 <<< 16 ||| 0 <<< 24)) stPlain := by
  refine ⟨?_, ?_, ?_, ?_, ?_, ?_⟩
  · exact (c7_lane_gate_semantics envZero dmTest TYPE_MIPI 4 2 0x61 1 7 0 4
      0xAB 0 0 0 [1, 0x33] cbufZero stPlain false false).1 (by decide)
      (by decide) (by decide)
  · exact (c7_lane_gate_semantics envZero dmTest TYPE_MIPI 4 2 0x61 1 7 0 4
      0xAB 0 0 0 [0x33, 1, 0x44] cbufZero stPlain false false).2.1
      (by decide) (by decide) (by decide)
  · exact (c7_lane_gate_semantics envZero dmTest TYPE_MIPI 4 4 0x61 1 7 0 4
      0xAB 0 0 0 [0x0A, 0x0F, 1, 0x33] cbufZero stPlain false false).2.2.1
      (by decide)
  · exact (c7_lane_gate_semantics envZero dmTest TYPE_MIPI 4 3 0x61 1 7 0 4
      0xAB 0 0 0 [5, 1, 0x33] cbufZero stPlain false false).2.2.2.1
      (by decide)
  · exact (c7_lane_gate_semantics envZero dmTest TYPE_MIPI 4 2 0x61 1 7 0 4
      0xAB 0 0 0 [1, 0x33] cbufZero stPlain false false).2.2.2.2.1
      (by decide) (by decide)
  · exact (c7_lane_gate_semantics envZero dmTest TYPE_MIPI 4 2 0x61 1 7 0 4
      0xAB 0 0 0 [1, 0x33] cbufZero stPlain false false).2.2.2.2.2
      (by decide)

/-! ## C10: unknown-code asymmetry -/

/-- C10: the interpreter's handling of unknown codes is asymmetric.  A
field-patch selector inside the `S_CONST..S_VFP` range that matches none of
the eight computed quantities (0x54 here) patches a value of 0 and the
stream simply continues to the next instruction — the panel state is
untouched and nothing fatal happens; an opcode byte that matches no
instruction variant at all aborts the entire stream immediately with
`-EINVAL` and performs no dispatch. -/
theorem c10_unknown_code_asymmetry (env : Env) (dm : DisplayMode)
    (ty lanes fuel ds dl ss b : Nat) (rest : List Nat) (cbuf : List Nat)
    (st : St) (mm : Bool) :
    (rest.length ≠ 0 →
      cmdLoop env dm ty lanes (fuel + 1) (0x54 :: ds :: dl :: ss :: rest)
          (rest.length + 4) false mm cbuf st =
        cmdLoop env dm ty lanes fuel rest rest.length false mm
          (fieldPatch 40 cbuf ds dl 0) st) ∧
    (S_VFP < b → b < S_IF_1_LANE → rest.length ≠ 0 →
      send_cmd_list env dm ty lanes (b :: rest) cbuf st =
        ({ st with spi_bits := 0 }, -22)) := by
  constructor
  · intro hne
    have hstep : stepInstr env dm ty lanes (0x54 :: ds :: dl :: ss :: rest)
        (rest.length + 4) false cbuf st =
        .next rest rest.length false false (fieldPatch 40 cbuf ds dl 0) st := by
      unfold stepInstr stepPatch finishStep scmdVal
      simp +decide only [List.headD_cons, List.tail_cons, S_IF_1_LANE,
        S_IF_4_LANES, S_DELAY, S_DCS_LENGTH, S_DCS_BUF, S_MRPS, S_DCS_READ1,
        S_DCS_READ8, S_CONST, S_VFP, S_HSYNC, S_HBP, S_HACTIVE, S_HFP,
        S_VSYNC, S_VBP, S_VACTIVE,
        show ¬ rest.length + 4 - 1 = 0 from by omega,
        show ¬ rest.length + 4 - 1 < 3 from by omega,
        show ¬ rest.length + 4 - 1 - 3 = 0 from by omega,
        show rest.length + 4 - 1 - 3 = rest.length from by omega,
        show ¬ (0 : Int) < 0 from by norm_num, Nat.zero_shiftRight,
        if_true, if_false,
        show List.drop 3 (ds :: dl :: ss :: rest) = rest from rfl,
        show (ds :: dl :: ss :: rest).getD 2 0 = ss from rfl, hne]
    rw [cmdLoop_succ, hstep]
    simp
  · intro hb1 hb2 hne
    have hmask : b &&& 0x7f = b := by
      refine and_0x7f_eq b ?_
      unfold S_IF_1_LANE at hb2
      omega
    have hstep : stepInstr env dm ty lanes (b :: rest) (rest.length + 1) false
        cbuf { st with spi_bits := 0 } =
        .stop true { st with spi_bits := 0 } := by
      unfold stepInstr
      dsimp only []
      simp only [List.headD_cons, List.tail_cons, Nat.add_sub_cancel]
      rw [if_neg hne]
      rw [if_neg (by unfold S_IF_1_LANE S_IF_4_LANES at *; omega)]
      rw [hmask]
      rw [if_neg (by unfold S_DELAY S_DCS_LENGTH S_DCS_BUF S_VFP at *; omega)]
      rw [if_neg (by unfold S_MRPS S_VFP at *; omega)]
      rw [if_neg (by unfold S_DCS_READ1 S_DCS_READ8 S_VFP at *; omega)]
      rw [if_neg (by unfold S_DELAY S_VFP at *; omega)]
      rw [if_neg (by omega)]
    rw [send_cmd_list_cons, hstep]
    simp [sendFinish]

/-- C10 (witness): the asymmetry at a concrete stream — selector 0x54
patches 0 and continues; opcode 0x58 aborts with -22. -/
theorem c10_unknown_code_asymmetry_witness :
    cmdLoop envZero dmTest TYPE_MIPI 4 3 [0x54, 0, 4, 0, 1, 0x33] 6 false false
        cbufZero stPlain =
      cmdLoop envZero dmTest TYPE_MIPI 4 2 [1, 0x33] 2 false false
        (fieldPatch 40 cbufZero 0 4 0) stPlain ∧
    send_cmd_list envZero dmTest TYPE_MIPI 4 [0x58, 1, 0x33] cbufZero stPlain =
      ({ stPlain with spi_bits := 0 }, -22) := by
  constructor
  · exact (c10_unknown_code_asymmetry envZero dmTest TYPE_MIPI 4 2 0 4 0 0x58
      [1, 0x33] cbufZero stPlain false).1 (by decide)
  · exact (c10_unknown_code_asymmetry envZero dmTest TYPE_MIPI 4 2 0 4 0 0x58
      [1, 0x33] cbufZero stPlain false).2 (by decide) (by decide) (by decide)

/-! ## Bit-level lemmas for the 9-bit packer -/

theorem and_7_eq_mod (n : Nat) : n &&& 7 = n % 8 := by
  apply Nat.eq_of_testBit_eq
  intro i
  rw [Nat.testBit_and]
  have e8 : (8 : Nat) = 2 ^ 3 := by norm_num
  rw [e8, Nat.testBit_mod_two_pow]
  by_cases hi : i < 3
  · have h7 : (7 : Nat).testBit i = true := by interval_cases i <;> decide
    simp [h7, hi]
  · have h7 : (7 : Nat).testBit i = false := by
      refine Nat.testBit_lt_two_pow ?_
      have h3 : (7 : Nat) < 2 ^ 3 := by norm_num
      exact lt_of_lt_of_le h3 (Nat.pow_le_pow_right (by norm_num) (by omega))
    simp [h7, hi]

theorem shiftRight3_eq_div (n : Nat) : n >>> 3 = n / 8 := by
  rw [Nat.shiftRight_eq_div_pow]

theorem testBit_byte_high (b k : Nat) (hb : b < 256) (hk : 8 ≤ k) :
    b.testBit k = false := by
  refine Nat.testBit_lt_two_pow (lt_of_lt_of_le hb ?_)
  have e : (256 : Nat) = 2 ^ 8 := by norm_num
  rw [e]
  exact Nat.pow_le_pow_right (by norm_num) hk

theorem testBit_256 (k : Nat) : (0x100 : Nat).testBit k = decide (8 = k) := by
  have e : (0x100 : Nat) = 2 ^ 8 := by norm_num
  rw [e]
  exact Nat.testBit_two_pow

theorem getD_set_ne (l : List Nat) (i n a : Nat) (h : i ≠ n) :
    (l.set i a).getD n 0 = l.getD n 0 := by
  simp [List.getD_eq_getElem?_getD, List.getElem?_set_ne h]

theorem getD_set_eq (l : List Nat) (i a : Nat) (h : i < l.length) :
    (l.set i a).getD i 0 = a := by
  simp [List.getD_eq_getElem?_getD, List.getElem?_set_self, h]

theorem getD_of_length_le (l : List Nat) (n : Nat) (h : l.length ≤ n) :
    l.getD n 0 = 0 := by
  simp [List.getD_eq_getElem?_getD, List.getElem?_eq_none h]

theorem getD_take_lt (l : List Nat) (m n : Nat) (h : n < m) :
    (l.take m).getD n 0 = l.getD n 0 := by
  simp [List.getD_eq_getElem?_getD, List.getElem?_take_of_lt h]

theorem getD_mem (l : List Nat) (n d : Nat) (h : n < l.length) :
    l.getD n d ∈ l := by
  rw [List.getD_eq_getElem l d h]
  exact List.getElem_mem h

/-- A byte is determined by its eight bits, most significant first. -/
theorem byte_eq_of_testBit (e B : Nat) (he : e < 256) (hB : B < 256)
    (h : ∀ j, j < 8 → e.testBit (7 - j) = B.testBit (7 - j)) : e = B := by
  apply Nat.eq_of_testBit_eq
  intro i
  by_cases hi : i < 8
  · have h8 := h (7 - i) (by omega)
    rwa [show 7 - (7 - i) = i from by omega] at h8
  · rw [testBit_byte_high e i he (by omega), testBit_byte_high B i hB (by omega)]

/-- Bits of the marker-refill value `((val <<< 9) % 2^32) ||| 0x100 ||| b`. -/
theorem testBit_refill (val b k : Nat) (hb : b < 256) (hk : k < 32) :
    (((val <<< 9) % 2 ^ 32) ||| 0x100 ||| b).testBit k =
      if 9 ≤ k then val.testBit (k - 9)
      else if k = 8 then true else b.testBit k := by
  rw [Nat.testBit_or, Nat.testBit_or, Nat.testBit_mod_two_pow,
    Nat.testBit_shiftLeft, testBit_256]
  by_cases h9 : 9 ≤ k
  · rw [if_pos h9]
    rw [testBit_byte_high b k hb (by omega)]
    simp [h9, hk, show ¬ 8 = k from by omega]
  · rw [if_neg h9]
    by_cases h8 : k = 8
    · subst h8
      simp
    · rw [if_neg h8]
      simp [show ¬ 9 ≤ k from h9, show ¬ 8 = k from fun hh => h8 hh.symm, hk]

/-- Bits of the padding-refill value `(val <<< 9) % 2^32`. -/
theorem testBit_refill_pad (val k : Nat) (hk : k < 32) :
    ((val <<< 9) % 2 ^ 32).testBit k =
      if 9 ≤ k then val.testBit (k - 9) else false := by
  rw [Nat.testBit_mod_two_pow, Nat.testBit_shiftLeft]
  by_cases h9 : 9 ≤ k
  · simp [h9, hk]
  · simp [h9, hk]

theorem store9Loop_succ (fuel : Nat) (p buf : List Nat)
    (idx val v_bits bits : Nat) :
    store9Loop (fuel + 1) p buf idx val v_bits bits =
      if bits = 0 then buf
      else
        if v_bits - 8 < 8 then
          match p with
          | [] => store9Loop fuel [] (buf.set idx ((val >>> (v_bits - 8)) % 256))
              (idx + 1) ((val <<< 9) % 2 ^ 32) (v_bits - 8 + 9) (bits - 8)
          | b :: tl => store9Loop fuel tl (buf.set idx ((val >>> (v_bits - 8)) % 256))
              (idx + 1) (((val <<< 9) % 2 ^ 32) ||| 0x100 ||| b) (v_bits - 8 + 9)
              (bits - 8)
        else store9Loop fuel p (buf.set idx ((val >>> (v_bits - 8)) % 256))
          (idx + 1) val (v_bits - 8) (bits - 8) := rfl

theorem store9Loop_length : ∀ (fuel : Nat) (p buf : List Nat)
    (idx val v_bits bits : Nat),
    (store9Loop fuel p buf idx val v_bits bits).length = buf.length := by
  intro fuel
  induction fuel with
  | zero => intro p buf idx val v_bits bits; rfl
  | succ fuel ih =>
    intro p buf idx val v_bits bits
    rw [store9Loop_succ]
    split
    · rfl
    · split
      · cases p with
        | nil => rw [ih]; simp
        | cons b tl => rw [ih]; simp
      · rw [ih]; simp

theorem store9Loop_getD_left : ∀ (fuel : Nat) (p buf : List Nat)
    (idx val v_bits bits n : Nat), n < idx →
    (store9Loop fuel p buf idx val v_bits bits).getD n 0 = buf.getD n 0 := by
  intro fuel
  induction fuel with
  | zero => intro p buf idx val v_bits bits n _; rfl
  | succ fuel ih =>
    intro p buf idx val v_bits bits n hn
    rw [store9Loop_succ]
    split
    · rfl
    · split
      · cases p with
        | nil => rw [ih _ _ _ _ _ _ _ (by omega)]; exact getD_set_ne _ _ _ _ (by omega)
        | cons b tl => rw [ih _ _ _ _ _ _ _ (by omega)]; exact getD_set_ne _ _ _ _ (by omega)
      · rw [ih _ _ _ _ _ _ _ (by omega)]; exact getD_set_ne _ _ _ _ (by omega)

theorem store9Loop_getD_bound : ∀ (fuel : Nat) (p buf : List Nat)
    (idx val v_bits bits : Nat), bits ≤ 8 * fuel →
    ∀ n, idx ≤ n → 8 * n < 8 * idx + bits →
    (store9Loop fuel p buf idx val v_bits bits).getD n 0 < 256 := by
  intro fuel
  induction fuel with
  | zero =>
    intro p buf idx val v_bits bits hf n h1 h2
    omega
  | succ fuel ih =>
    intro p buf idx val v_bits bits hf n h1 h2
    rw [store9Loop_succ]
    split
    · omega
    · rename_i hb0
      by_cases hn : n = idx
      · subst hn
        have hleft : ∀ (q : List Nat) (v2 vb2 b2 : Nat),
            (store9Loop fuel q (buf.set n ((val >>> (v_bits - 8)) % 256))
              (n + 1) v2 vb2 b2).getD n 0 =
            (buf.set n ((val >>> (v_bits - 8)) % 256)).getD n 0 :=
          fun q v2 vb2 b2 => store9Loop_getD_left fuel q _ (n + 1) v2 vb2 b2 n
            (by omega)
        have hv : (buf.set n ((val >>> (v_bits - 8)) % 256)).getD n 0 < 256 := by
          by_cases hlt : n < buf.length
          · rw [getD_set_eq buf n _ hlt]
            exact Nat.mod_lt _ (by norm_num)
          · rw [getD_of_length_le _ n (by simp; omega)]
            norm_num
        split
        · cases p with
          | nil => rw [hleft]; exact hv
          | cons b tl => rw [hleft]; exact hv
        · rw [hleft]; exact hv
      · split
        · cases p with
          | nil => exact ih _ _ _ _ _ _ (by omega) n (by omega) (by omega)
          | cons b tl => exact ih _ _ _ _ _ _ (by omega) n (by omega) (by omega)
        · exact ih _ _ _ _ _ _ (by omega) n (by omega) (by omega)

/-- The byte written by one loop iteration lands the next eight queued bits
(bits `v_bits-1 .. v_bits-8` of `val`) at stream positions
`8*idx .. 8*idx+7`. -/
theorem bufBit_set_write (buf : List Nat) (idx val v_bits : Nat) (S : Nat → Bool)
    (hlen : idx < buf.length) (hv8 : 8 ≤ v_bits)
    (hcur : ∀ j, j < v_bits → val.testBit (v_bits - 1 - j) = S (8 * idx + j))
    (hprev : ∀ t, t < 8 * idx → bufBit buf t = S t) :
    ∀ t, t < 8 * (idx + 1) →
      bufBit (buf.set idx ((val >>> (v_bits - 8)) % 256)) t = S t := by
  intro t ht
  by_cases hlt : t < 8 * idx
  · unfold bufBit
    rw [getD_set_ne buf idx (t / 8) _ (by omega)]
    exact hprev t hlt
  · have hdiv : t / 8 = idx := by omega
    unfold bufBit
    rw [hdiv, getD_set_eq buf idx _ hlen]
    rw [show (256 : Nat) = 2 ^ 8 from by norm_num]
    rw [Nat.testBit_mod_two_pow, Nat.testBit_shiftRight]
    have hc := hcur (t - 8 * idx) (by omega)
    rw [show 8 * idx + (t - 8 * idx) = t from by omega] at hc
    rw [show v_bits - 8 + (7 - t % 8) = v_bits - 1 - (t - 8 * idx) from by omega]
    simp [hc, show 7 - t % 8 < 8 from by omega]

/-- Main invariant of the `store_9bit` loop: if the already-written prefix,
the queued bits of `val` and the remaining bytes of `p` line up with the bit
stream `S` (with `S` false past the end of the stream), then after the loop
every stream position below `8*idx + bits` holds its `S` bit. -/
theorem store9Loop_bitSpec (S : Nat → Bool) : ∀ (fuel : Nat) (p buf : List Nat)
    (idx val v_bits bits : Nat),
    bits ≤ 8 * fuel →
    buf.length = 63 →
    (8 * idx + bits ≤ 504 ∨ bits = 0) →
    8 ≤ v_bits → v_bits ≤ 16 →
    bits ≤ v_bits + 9 * p.length →
    (∀ t, t < 8 * idx → bufBit buf t = S t) →
    (∀ j, j < v_bits → val.testBit (v_bits - 1 - j) = S (8 * idx + j)) →
    (∀ m, m < p.length → S (8 * idx + v_bits + 9 * m) = true ∧
      ∀ j, j < 8 → S (8 * idx + v_bits + 9 * m + 1 + j) =
        (p.getD m 0).testBit (7 - j)) →
    (∀ t, 8 * idx + bits ≤ t → S t = false) →
    (∀ b ∈ p, b < 256) →
    ∀ t, t < 8 * idx + bits →
      bufBit (store9Loop fuel p buf idx val v_bits bits) t = S t := by
  intro fuel
  induction fuel with
  | zero =>
    intro p buf idx val v_bits bits hf hlen hQ hv8 hv16 hlp hprev hcur hrest
      hend hbytes t ht
    exact hprev t (by omega)
  | succ fuel ih =>
    intro p buf idx val v_bits bits hf hlen hQ hv8 hv16 hlp hprev hcur hrest
      hend hbytes t ht
    by_cases hb0 : bits = 0
    · rw [store9Loop_succ, if_pos hb0]
      exact hprev t (by omega)
    · rw [store9Loop_succ, if_neg hb0]
      have hidx' : idx < buf.length := by omega
      have hwrite := bufBit_set_write buf idx val v_bits S hidx' hv8 hcur hprev
      have hlen' : (buf.set idx ((val >>> (v_bits - 8)) % 256)).length = 63 := by
        simp [hlen]
      by_cases hvb : v_bits - 8 < 8
      · rw [if_pos hvb]
        cases p with
        | nil =>
          have hlp0 : bits ≤ v_bits := by simpa using hlp
          refine ih [] _ (idx + 1) ((val <<< 9) % 2 ^ 32) (v_bits - 8 + 9)
            (bits - 8) (by omega) hlen' (by omega) (by omega) (by omega)
            (by simp; omega) hwrite ?_ (by simp) ?_ (by simp) t (by omega)
          · intro j hj
            rw [testBit_refill_pad val _ (by omega)]
            by_cases hjs : j < v_bits - 8
            · rw [if_pos (by omega : 9 ≤ v_bits - 8 + 9 - 1 - j)]
              have hc := hcur (j + 8) (by omega)
              rw [show v_bits - 8 + 9 - 1 - j - 9 = v_bits - 1 - (j + 8) from by
                omega]
              rw [show 8 * (idx + 1) + j = 8 * idx + (j + 8) from by omega]
              exact hc
            · rw [if_neg (by omega : ¬ 9 ≤ v_bits - 8 + 9 - 1 - j)]
              exact (hend (8 * (idx + 1) + j) (by omega)).symm
          · intro t' ht'
            exact hend t' (by omega)
        | cons b tl =>
          have hb : b < 256 := hbytes b (by simp)
          have hlpc : bits ≤ v_bits + 9 * (tl.length + 1) := by
            simpa using hlp
          refine ih tl _ (idx + 1)
            (((val <<< 9) % 2 ^ 32) ||| 0x100 ||| b) (v_bits - 8 + 9)
            (bits - 8) (by omega) hlen' (by omega) (by omega) (by omega)
            (by omega) hwrite ?_ ?_ ?_ (fun x hx => hbytes x (by simp [hx]))
            t (by omega)
          · intro j hj
            rw [testBit_refill val b _ hb (by omega)]
            by_cases hjs : j < v_bits - 8
            · rw [if_pos (by omega : 9 ≤ v_bits - 8 + 9 - 1 - j)]
              have hc := hcur (j + 8) (by omega)
              rw [show v_bits - 8 + 9 - 1 - j - 9 = v_bits - 1 - (j + 8) from by
                omega]
              rw [show 8 * (idx + 1) + j = 8 * idx + (j + 8) from by omega]
              exact hc
            · by_cases hje : j = v_bits - 8
              · rw [if_neg (by omega), if_pos (by omega)]
                have h0 := (hrest 0 (by simp)).1
                rw [show 8 * idx + v_bits + 9 * 0 = 8 * (idx + 1) + j from by
                  omega] at h0
                exact h0.symm
              · rw [if_neg (by omega), if_neg (by omega)]
                have hj' : j - (v_bits - 8) - 1 < 8 := by omega
                have h2 := (hrest 0 (by simp)).2 (j - (v_bits - 8) - 1) hj'
                rw [show 8 * idx + v_bits + 9 * 0 + 1 + (j - (v_bits - 8) - 1) =
                  8 * (idx + 1) + j from by omega] at h2
                rw [show (b :: tl).getD 0 0 = b from rfl] at h2
                rw [show v_bits - 8 + 9 - 1 - j = 7 - (j - (v_bits - 8) - 1)
                  from by omega]
                exact h2.symm
          · intro m hm
            have h3 := hrest (m + 1) (by simp; omega)
            refine ⟨?_, ?_⟩
            · have h1 := h3.1
              rw [show 8 * idx + v_bits + 9 * (m + 1) =
                8 * (idx + 1) + (v_bits - 8 + 9) + 9 * m from by omega] at h1
              exact h1
            · intro j hj
              have h2 := h3.2 j hj
              rw [show 8 * idx + v_bits + 9 * (m + 1) + 1 + j =
                8 * (idx + 1) + (v_bits - 8 + 9) + 9 * m + 1 + j from by
                omega] at h2
              rw [show (b :: tl).getD (m + 1) 0 = tl.getD m 0 from rfl] at h2
              exact h2
          · intro t' ht'
            exact hend t' (by omega)
      · rw [if_neg hvb]
        refine ih p _ (idx + 1) val (v_bits - 8) (bits - 8) (by omega) hlen'
          (by omega) (by omega) (by omega) (by omega) hwrite ?_ ?_ ?_ hbytes
          t (by omega)
        · intro j hj
          have hc := hcur (j + 8) (by omega)
          rw [show v_bits - 8 - 1 - j = v_bits - 1 - (j + 8) from by omega]
          rw [show 8 * (idx + 1) + j = 8 * idx + (j + 8) from by omega]
          exact hc
        · intro m hm
          have h3 := hrest m hm
          refine ⟨?_, ?_⟩
          · have h1 := h3.1
            rw [show 8 * idx + v_bits + 9 * m =
              8 * (idx + 1) + (v_bits - 8) + 9 * m from by omega] at h1
            exact h1
          · intro j hj
            have h2 := h3.2 j hj
            rw [show 8 * idx + v_bits + 9 * m + 1 + j =
              8 * (idx + 1) + (v_bits - 8) + 9 * m + 1 + j from by omega] at h2
            exact h2
        · intro t' ht'
          exact hend t' (by omega)

/-- Bits of the first-byte value `((y <<< 9) % 2^32) ||| b` (no 0x100
marker). -/
theorem testBit_first (y b k : Nat) (hb : b < 256) (hk : k < 32) :
    (((y <<< 9) % 2 ^ 32) ||| b).testBit k =
      if 9 ≤ k then y.testBit (k - 9) else b.testBit k := by
  rw [Nat.testBit_or, Nat.testBit_mod_two_pow, Nat.testBit_shiftLeft]
  by_cases h9 : 9 ≤ k
  · rw [if_pos h9, testBit_byte_high b k hb (by omega)]
    simp [h9, hk]
  · rw [if_neg h9]
    simp [h9, hk]

theorem streamBit_nil (t : Nat) : streamBit [] t = false := by
  unfold streamBit
  simp

theorem streamBit_marker (p : List Nat) (k : Nat) (hk : k < p.length) :
    streamBit p (9 * k) = decide (k ≠ 0) := by
  unfold streamBit
  rw [if_pos (by omega : 9 * k < 9 * p.length)]
  rw [show 9 * k % 9 = 0 from by omega, if_pos rfl,
    show 9 * k / 9 = k from by omega]

theorem streamBit_data (p : List Nat) (k j : Nat) (hk : k < p.length)
    (hj : j < 8) : streamBit p (9 * k + (1 + j)) = (p.getD k 0).testBit (7 - j) := by
  unfold streamBit
  rw [if_pos (by omega : 9 * k + (1 + j) < 9 * p.length)]
  rw [if_neg (show ¬ (9 * k + (1 + j)) % 9 = 0 from by omega)]
  rw [show (9 * k + (1 + j)) / 9 = k from by omega,
    show 8 - (9 * k + (1 + j)) % 9 = 7 - j from by omega]

theorem streamBit_ge (p : List Nat) (t : Nat) (h : 9 * p.length ≤ t) :
    streamBit p t = false := by
  unfold streamBit
  rw [if_neg (by omega)]

/-- Correctness of `store9start` at an arbitrary bit offset `i`: positions
below `i` keep the bits already in the buffer, and positions `i ..
i + 9*|p|` receive the 9-bit framing of `p`, whose first marker is 0. -/
theorem store9start_spec (tx : List Nat) (i : Nat) (p : List Nat)
    (hlen : tx.length = 63) (hfit : i + p.length * 9 ≤ 504)
    (hp : ∀ b ∈ p, b < 256) :
    ∀ t, t < i + p.length * 9 →
      bufBit (store9start tx i p (p.length * 9)) t =
        if t < i then bufBit tx t else streamBit p (t - i) := by
  cases p with
  | nil =>
    intro t ht
    simp only [List.length_nil, Nat.zero_mul, Nat.add_zero] at ht hfit
    rw [if_pos (by omega : t < i)]
    unfold store9start
    simp only [List.length_nil, Nat.zero_mul, shiftRight3_eq_div, and_7_eq_mod]
    rw [show (if i % 8 ≠ 0 then 0 + i % 8 else 0) = i % 8 from by
      by_cases h : i % 8 = 0 <;> simp [h]]
    have hmain := store9Loop_bitSpec
      (fun u => if u < i then bufBit tx u else streamBit [] (u - i))
      (i % 8 + 9) [] tx (i / 8)
      (((if i % 8 ≠ 0 then tx.getD (i / 8) 0 >>> (8 - i % 8) else 0) <<< 9) % 2 ^ 32)
      (i % 8 + 9) (i % 8)
      (by omega) hlen (by omega) (by omega) (by omega) (by simp)
      ?_ ?_ (by simp) ?_ (by simp) t (by omega)
    · rw [hmain]
      simp only []
      rw [if_pos (by omega : t < i)]
    · intro t' ht'
      simp only []
      rw [if_pos (by omega)]
    · intro j hj
      simp only []
      rw [testBit_refill_pad _ _ (by omega)]
      by_cases hjs : j < i % 8
      · rw [if_pos (by omega : 9 ≤ i % 8 + 9 - 1 - j)]
        rw [if_pos (by omega : i % 8 ≠ 0)]
        rw [show i % 8 + 9 - 1 - j - 9 = i % 8 - 1 - j from by omega]
        rw [Nat.testBit_shiftRight]
        rw [if_pos (by omega : 8 * (i / 8) + j < i)]
        unfold bufBit
        rw [show (8 * (i / 8) + j) / 8 = i / 8 from by omega,
          show (8 * (i / 8) + j) % 8 = j from by omega,
          show 8 - i % 8 + (i % 8 - 1 - j) = 7 - j from by omega]
      · rw [if_neg (by omega : ¬ 9 ≤ i % 8 + 9 - 1 - j)]
        rw [if_neg (by omega : ¬ 8 * (i / 8) + j < i), streamBit_nil]
    · intro t' ht'
      simp only []
      rw [if_neg (by omega), streamBit_nil]
  | cons b tl =>
    intro t ht
    simp only [List.length_cons] at ht hfit
    have hb : b < 256 := hp b (by simp)
    unfold store9start
    simp only [shiftRight3_eq_div, and_7_eq_mod]
    rw [show (if i % 8 ≠ 0 then (b :: tl).length * 9 + i % 8
        else (b :: tl).length * 9) = (b :: tl).length * 9 + i % 8 from by
      by_cases h : i % 8 = 0 <;> simp [h]]
    have hmain := store9Loop_bitSpec
      (fun u => if u < i then bufBit tx u else streamBit (b :: tl) (u - i))
      ((b :: tl).length * 9 + i % 8 + 9) tl tx (i / 8)
      ((((if i % 8 ≠ 0 then tx.getD (i / 8) 0 >>> (8 - i % 8) else 0) <<< 9)
        % 2 ^ 32) ||| b)
      (i % 8 + 9) ((b :: tl).length * 9 + i % 8)
      (by simp; omega) hlen (by simp; omega) (by omega) (by omega)
      (by simp; omega) ?_ ?_ ?_ ?_
      (fun x hx => hp x (by simp [hx])) t (by simp; omega)
    · rw [hmain]
    · intro t' ht'
      simp only []
      rw [if_pos (by omega)]
    · intro j hj
      simp only []
      rw [testBit_first _ b _ hb (by omega)]
      by_cases hjs : j < i % 8
      · rw [if_pos (by omega : 9 ≤ i % 8 + 9 - 1 - j)]
        rw [if_pos (by omega : i % 8 ≠ 0)]
        rw [show i % 8 + 9 - 1 - j - 9 = i % 8 - 1 - j from by omega]
        rw [Nat.testBit_shiftRight]
        rw [if_pos (by omega : 8 * (i / 8) + j < i)]
        unfold bufBit
        rw [show (8 * (i / 8) + j) / 8 = i / 8 from by omega,
          show (8 * (i / 8) + j) % 8 = j from by omega,
          show 8 - i % 8 + (i % 8 - 1 - j) = 7 - j from by omega]
      · rw [if_neg (by omega : ¬ 9 ≤ i % 8 + 9 - 1 - j)]
        rw [if_neg (by omega : ¬ 8 * (i / 8) + j < i)]
        by_cases hje : j = i % 8
        · rw [show 8 * (i / 8) + j - i = 9 * 0 from by omega]
          rw [streamBit_marker (b :: tl) 0 (by simp)]
          rw [testBit_byte_high b _ hb (by omega)]
          simp
        · rw [show 8 * (i / 8) + j - i = 9 * 0 + (1 + (j - i % 8 - 1)) from by
            omega]
          rw [streamBit_data (b :: tl) 0 (j - i % 8 - 1) (by simp) (by omega)]
          rw [show (b :: tl).getD 0 0 = b from rfl]
          rw [show i % 8 + 9 - 1 - j = 7 - (j - i % 8 - 1) from by omega]
    · intro m hm
      refine ⟨?_, ?_⟩
      · simp only []
        rw [if_neg (by omega)]
        rw [show 8 * (i / 8) + (i % 8 + 9) + 9 * m - i = 9 * (m + 1) from by
          omega]
        rw [streamBit_marker (b :: tl) (m + 1) (by simp; omega)]
        simp
      · intro j hj
        simp only []
        rw [if_neg (by omega)]
        rw [show 8 * (i / 8) + (i % 8 + 9) + 9 * m + 1 + j - i =
          9 * (m + 1) + (1 + j) from by omega]
        rw [streamBit_data (b :: tl) (m + 1) j (by simp; omega) hj]
        rw [show (b :: tl).getD (m + 1) 0 = tl.getD m 0 from rfl]
    · intro t' ht'
      simp only []
      rw [if_neg (by omega)]
      rw [streamBit_ge (b :: tl) _ (by
        simp only [List.length_cons] at ht' ⊢
        omega)]

/-! ## Extraction lemmas -/

theorem extractLoop_lt : ∀ (bytes : Nat) (buf : List Nat) (q val v_bits : Nat)
    (dst : List Nat), (∀ y ∈ dst, y < 256) →
    ∀ y ∈ extractLoop bytes buf q val v_bits dst, y < 256 := by
  intro bytes
  induction bytes with
  | zero => intro buf q val vb dst h y hy; exact h y hy
  | succ b ih =>
    intro buf q val vb dst h y hy
    unfold extractLoop at hy
    dsimp only [] at hy
    refine ih _ _ _ _ _ ?_ y hy
    intro z hz
    rcases List.mem_append.1 hz with hz1 | hz1
    · exact h z hz1
    · have hz2 := List.mem_singleton.1 hz1
      rw [hz2]
      exact Nat.mod_lt _ (by norm_num)

theorem extract_one_lt (buf : List Nat) (s : Nat) :
    (extract_data 1 buf s).headD 0 < 256 := by
  cases he : extract_data 1 buf s with
  | nil => simp
  | cons a l =>
    have hmem : a ∈ extract_data 1 buf s := by rw [he]; simp
    have ha : a < 256 := by
      unfold extract_data at hmem
      dsimp only [] at hmem
      split at hmem
      · exact extractLoop_lt 1 _ _ _ _ [] (by simp) a hmem
      · exact extractLoop_lt 1 _ _ _ _ [] (by simp) a hmem
    simp [ha]

/-- A single-byte `extract_data` at bit `s` assembles exactly the eight bits
`s .. s+7` of the buffer, most significant first. -/
theorem extract_one_testBit (buf : List Nat) (s : Nat)
    (hb : ∀ n, buf.getD n 0 < 256) :
    ∀ j, j < 8 →
      ((extract_data 1 buf s).headD 0).testBit (7 - j) = bufBit buf (s + j) := by
  intro j hj
  unfold extract_data
  simp only [shiftRight3_eq_div, and_7_eq_mod]
  by_cases hr : s % 8 ≠ 0
  · rw [if_pos hr]
    unfold extractLoop
    dsimp only []
    simp only [if_pos (show 8 - s % 8 < 8 from by omega)]
    show ((extractLoop 0 _ _ _ _ ([] ++ [_])).headD 0).testBit (7 - j) = _
    unfold extractLoop
    simp only [List.nil_append, List.headD_cons]
    rw [show (256 : Nat) = 2 ^ 8 from by norm_num, Nat.testBit_mod_two_pow,
      Nat.testBit_shiftRight, Nat.testBit_mod_two_pow, Nat.testBit_or,
      Nat.testBit_shiftLeft]
    by_cases hc : s % 8 + j < 8
    · rw [testBit_byte_high (buf.getD (s / 8 + 1) 0) _ (hb _) (by omega)]
      unfold bufBit
      rw [show (s + j) / 8 = s / 8 from by omega,
        show (s + j) % 8 = s % 8 + j from by omega]
      rw [show 8 - s % 8 + 8 - 8 + (7 - j) - 8 = 7 - (s % 8 + j) from by omega]
      rw [decide_eq_true (show 7 - j < 8 from by omega),
        decide_eq_true (show 8 - s % 8 + 8 - 8 + (7 - j) < 32 from by omega),
        decide_eq_true (show 8 ≤ 8 - s % 8 + 8 - 8 + (7 - j) from by omega)]
      simp
    · unfold bufBit
      rw [show (s + j) / 8 = s / 8 + 1 from by omega,
        show (s + j) % 8 = s % 8 + j - 8 from by omega]
      rw [decide_eq_true (show 7 - j < 8 from by omega),
        decide_eq_true (show 8 - s % 8 + 8 - 8 + (7 - j) < 32 from by omega),
        decide_eq_false (show ¬ 8 ≤ 8 - s % 8 + 8 - 8 + (7 - j) from by omega),
        show 8 - s % 8 + 8 - 8 + (7 - j) = 7 - (s % 8 + j - 8) from by omega]
      simp
  · rw [if_neg hr]
    unfold extractLoop
    dsimp only []
    simp only [if_pos (show (0 : Nat) < 8 from by norm_num)]
    show ((extractLoop 0 _ _ _ _ ([] ++ [_])).headD 0).testBit (7 - j) = _
    unfold extractLoop
    simp only [List.nil_append, List.headD_cons]
    rw [Nat.zero_shiftLeft, Nat.zero_or]
    rw [show (256 : Nat) = 2 ^ 8 from by norm_num, Nat.testBit_mod_two_pow,
      Nat.testBit_shiftRight, Nat.testBit_mod_two_pow]
    unfold bufBit
    rw [show (s + j) / 8 = s / 8 from by omega,
      show (s + j) % 8 = j from by omega]
    rw [decide_eq_true (show 7 - j < 8 from by omega),
      decide_eq_true (show 0 + 8 - 8 + (7 - j) < 32 from by omega),
      show 0 + 8 - 8 + (7 - j) = 7 - j from by omega]
    simp

/-- Every buffer entry a pack starting at bit 0 has written is a byte. -/
theorem store9start_zero_getD_bound (tx : List Nat) (p : List Nat) (n : Nat)
    (h : 8 * n < p.length * 9) :
    (store9start tx 0 p (p.length * 9)).getD n 0 < 256 := by
  unfold store9start
  rw [show (0 : Nat) >>> 3 = 0 from rfl, show (0 : Nat) &&& 7 = 0 from rfl]
  dsimp only []
  have h0 : ¬ ((0 : Nat) ≠ 0) := by simp
  rw [if_neg h0, if_neg h0]
  cases p with
  | nil => simp at h
  | cons b tl =>
    exact store9Loop_getD_bound _ _ _ _ _ _ _ (by omega) n (by omega) (by omega)

/-! ## C1: pack/unpack round trip -/

/-- C1: for every byte list `B` that fits in the 504-bit transmit buffer,
packing `B` from an empty accumulator, flushing, and unpacking `|B|` plain
bytes from the flushed bitstream — reading byte `k` at bit `9k+1`, i.e.
skipping the marker bits exactly as they were written (marker 0 then 1s) —
returns exactly `B`. -/
theorem c1_pack_flush_unpack_roundtrip (env : Env) (st : St) (B : List Nat)
    (hlen : st.tx_buf.length = 63) (hsb : st.spi_bits = 0)
    (hB : ∀ b ∈ B, b < 256) (hfit : B.length * 9 ≤ 504) :
    unpack9 B.length (flushedBytes (store_9bit env st B).1) = B := by
  unfold store_9bit
  dsimp only []
  rw [if_neg (by omega)]
  dsimp only []
  rw [hsb]
  unfold flushedBytes unpack9
  dsimp only []
  have hm8 : (0 + B.length * 9 + 7) >>> 3 = (B.length * 9 + 7) / 8 := by
    rw [shiftRight3_eq_div]
    omega
  rw [hm8]
  set m := (B.length * 9 + 7) / 8 with hm
  set tx' := store9start st.tx_buf 0 B (B.length * 9) with htx'
  have htxlen : tx'.length = 63 := by
    rw [htx']
    unfold store9start
    dsimp only []
    cases B with
    | nil => rw [store9Loop_length]; exact hlen
    | cons b tl => rw [store9Loop_length]; exact hlen
  have hbound : ∀ n, (tx'.take m).getD n 0 < 256 := by
    intro n
    by_cases hn : n < m
    · rw [getD_take_lt _ _ _ hn]
      rw [htx']
      exact store9start_zero_getD_bound st.tx_buf B n (by omega)
    · rw [getD_of_length_le]
      · norm_num
      · have : (tx'.take m).length ≤ m := by simp
        omega
  refine List.ext_getElem (by simp) ?_
  intro k h1 h2
  simp only [List.getElem_map, List.getElem_range]
  have hk : k < B.length := by simpa using h2
  have hBk : B.getD k 0 < 256 := hB _ (getD_mem B k 0 hk)
  have hbits : ∀ j, j < 8 →
      ((extract_data 1 (tx'.take m) (9 * k + 1)).headD 0).testBit (7 - j) =
        (B.getD k 0).testBit (7 - j) := by
    intro j hj
    rw [extract_one_testBit (tx'.take m) (9 * k + 1) hbound j hj]
    have hin : 9 * k + 1 + j < B.length * 9 := by omega
    unfold bufBit
    rw [getD_take_lt _ _ _ (by omega : (9 * k + 1 + j) / 8 < m)]
    have hspec := store9start_spec st.tx_buf 0 B hlen (by omega) hB
      (9 * k + 1 + j) (by omega)
    rw [← htx'] at hspec
    unfold bufBit at hspec
    rw [hspec, if_neg (by omega), Nat.sub_zero]
    rw [show 9 * k + 1 + j = 9 * k + (1 + j) from by omega]
    exact streamBit_data B k j hk hj
  have := byte_eq_of_testBit _ _ (extract_one_lt (tx'.take m) (9 * k + 1))
    hBk hbits
  rw [this]
  exact List.getD_eq_getElem B 0 hk

/-- C1 (witness): the round trip at `B = [0xAA, 0x55, 0x01]` from a fresh
9-bit SPI state. -/
theorem c1_pack_flush_unpack_roundtrip_witness :
    unpack9 3 (flushedBytes (store_9bit envZero stSpi9 [0xAA, 0x55, 0x01]).1) =
      [0xAA, 0x55, 0x01] :=
  c1_pack_flush_unpack_roundtrip envZero stSpi9 [0xAA, 0x55, 0x01] (by decide)
    (by decide) (by decide) (by decide)

/-! ## C2: marker-bit convention -/

/-- C2 (counterexample): pack `[0xAA, 0xBB]` and then `[0xCC]` with no flush
in between, from a fresh accumulator.  The third byte is a subsequent byte
"since the last flush", so the claim requires its marker (stream bit 18) to
be 1; the code gives the first byte of each `store_9bit` call marker 0. -/
theorem c2_marker_after_second_call_is_zero :
    ¬ (bufBit (store_9bit envZero
        (store_9bit envZero stSpi9 [0xAA, 0xBB]).1 [0xCC]).1.tx_buf 18 = true) := by
  decide

/-- C2 (amended): within one `store_9bit` call the marker bit of the first
packed byte is 0 and the marker of every subsequent byte of the same call
is 1, regardless of the current bit offset; the "first byte" is per call,
not per flush. -/
theorem c2_marker_per_call (env : Env) (st : St) (p : List Nat) (k : Nat)
    (hlen : st.tx_buf.length = 63) (hp : ∀ b ∈ p, b < 256)
    (hfit : st.spi_bits + p.length * 9 ≤ 504) (hk : k < p.length) :
    bufBit (store_9bit env st p).1.tx_buf (st.spi_bits + 9 * k) =
      decide (k ≠ 0) := by
  unfold store_9bit
  dsimp only []
  rw [if_neg (by omega)]
  dsimp only []
  have hs := store9start_spec st.tx_buf st.spi_bits p hlen (by omega) hp
    (st.spi_bits + 9 * k) (by omega)
  rw [hs, if_neg (by omega),
    show st.spi_bits + 9 * k - st.spi_bits = 9 * k from by omega,
    streamBit_marker p k hk]

/-- C2 (witness): the amended statement at the second byte of a two-byte
call starting at offset 18. -/
theorem c2_marker_per_call_witness :
    bufBit (store_9bit envZero
        { stSpi9 with spi_bits := 18 } [0x11, 0x22]).1.tx_buf (18 + 9 * 1) =
      decide ((1 : Nat) ≠ 0) :=
  c2_marker_per_call envZero { stSpi9 with spi_bits := 18 } [0x11, 0x22] 1
    (by decide) (by decide) (by decide) (by decide)

/-! ## C3: pack capacity and implicit flush -/

/-- C3: with a transport that accepts every transfer, a `store_9bit` call
fails (with `-EINVAL`) exactly when the call alone needs more than 504 bits;
a call that fits the remaining space runs with no flush; a call that would
overflow the 504-bit buffer first flushes (one physical transfer of the
pending bytes) and stores from offset 0; and the accumulator never exceeds
504 bits. -/
theorem c3_pack_capacity (env : Env) (st : St) (p : List Nat)
    (hsb : st.spi_bits ≤ 504) (hsp : st.spiPresent = true)
    (henv : ∀ n, env.spiRet n = 0) :
    ((store_9bit env st p).2 < 0 ↔ 504 < p.length * 9) ∧
    (504 < p.length * 9 → (store_9bit env st p).2 = -22) ∧
    (st.spi_bits + p.length * 9 ≤ 504 →
      (store_9bit env st p).1.spi_bits = st.spi_bits + p.length * 9 ∧
      (store_9bit env st p).1.trace = st.trace ∧
      (store_9bit env st p).2 = 0) ∧
    (504 < st.spi_bits + p.length * 9 → p.length * 9 ≤ 504 →
      (store_9bit env st p).1.spi_bits = p.length * 9 ∧
      (store_9bit env st p).1.trace =
        st.trace ++ [Ev.spiXfer (flushedBytes st) false 0] ∧
      (store_9bit env st p).2 = 0) ∧
    (store_9bit env st p).1.spi_bits ≤ 504 := by
  unfold store_9bit spi_send
  dsimp only []
  by_cases hov : st.spi_bits + p.length * 9 > 504
  · rw [if_pos hov]
    by_cases hbig : p.length * 9 > 504
    · rw [if_pos hbig]
      dsimp only []
      refine ⟨?_, fun _ => rfl, fun h => absurd h (by omega),
        fun h1 h2 => absurd h2 (by omega), ?_⟩
      · constructor
        · intro _; omega
        · intro _; norm_num
      · by_cases hz : ¬ st.spiPresent = true ∨ st.spi_bits = 0
        · rw [if_pos hz]
          dsimp only []
          omega
        · rw [if_neg hz]
          dsimp only []
          norm_num
    · rw [if_neg hbig]
      have hc : ¬ (¬ st.spiPresent = true ∨ st.spi_bits = 0) := by
        simp [hsp]
        omega
      rw [if_neg hc]
      dsimp only []
      rw [henv]
      refine ⟨?_, fun h => absurd h (by omega), fun h => absurd h (by omega),
        ?_, by omega⟩
      · constructor
        · intro h; norm_num at h
        · intro h; omega
      · intro h1 h2
        exact ⟨rfl, rfl, rfl⟩
  · rw [if_neg hov]
    dsimp only []
    refine ⟨?_, fun h => absurd h (by omega), ?_,
      fun h1 h2 => absurd h1 (by omega), by omega⟩
    · constructor
      · intro h; norm_num at h
      · intro h; omega
    · intro h
      exact ⟨rfl, rfl, rfl⟩

/-- C3 (witness): a 50-byte call at offset 450 overflows, flushes once and
stores at offset 0; capacity properties hold at that instance. -/
theorem c3_pack_capacity_witness :
    ¬ ((store_9bit envZero { stSpi9 with spi_bits := 450 }
        (List.replicate 50 7)).2 < 0) ∧
    (store_9bit envZero { stSpi9 with spi_bits := 450 }
        (List.replicate 50 7)).1.spi_bits = 450 := by
  constructor
  · have h := (c3_pack_capacity envZero { stSpi9 with spi_bits := 450 }
      (List.replicate 50 7) (by decide) (by decide) (fun n => rfl)).1
    intro hlt
    have := h.1 hlt
    simp at this
  · have h := (c3_pack_capacity envZero { stSpi9 with spi_bits := 450 }
      (List.replicate 50 7) (by decide) (by decide) (fun n => rfl)).2.2.2.1
      (by decide) (by decide)
    exact h.1.trans (by decide)

/-! ## C5: verification mismatch is soft -/

/-- Once the pending mismatch flag is set, the loop can only exit by
breaking with the flag still set or by an early fault return. -/
theorem cmdLoop_mm_persists (env : Env) (dm : DisplayMode) (ty lanes : Nat) :
    ∀ (fuel : Nat) (cmd : List Nat) (length : Nat) (skip : Bool)
      (cbuf : List Nat) (st : St),
      (cmdLoop env dm ty lanes fuel cmd length skip true cbuf st).2 =
          .brk true ∨
      ∃ r, (cmdLoop env dm ty lanes fuel cmd length skip true cbuf st).2 =
        .early r := by
  intro fuel
  induction fuel with
  | zero => intro cmd length skip cbuf st; exact Or.inl rfl
  | succ fuel ih =>
    intro cmd length skip cbuf st
    rw [cmdLoop_succ]
    cases h : stepInstr env dm ty lanes cmd length skip cbuf st with
    | next c' l' s' m' cb' st' =>
      dsimp only []
      rw [Bool.true_or]
      exact ih c' l' s' cb' st'
    | stop m' st' =>
      exact Or.inl (by dsimp only []; rw [Bool.true_or])
    | fault r st' => exact Or.inr ⟨r, rfl⟩

/-- C5: a command-interface 1-byte read whose transport succeeds records the
little-endian comparison of the fetched byte against the expected byte as
the pending-mismatch flag and CONTINUES (`.next`) with the rest of the
stream; a set mismatch flag persists to the loop exit unless a fault
returns early; and the loop exit maps to the final result as: pending
mismatch → `-EINVAL`, clean break → 0, fault → the fault's status. -/
theorem c5_mismatch_records_but_continues (env : Env) (dm : DisplayMode)
    (lanes length d e c : Nat) (tl : List Nat) (cbuf : List Nat) (st : St)
    (hr : env.dcsReadRet st.nDcsR = 0) (hdat : env.dcsReadData st.nDcsR = [d])
    (hlen : 2 < length) :
    stepRead env TYPE_MIPI 0 S_DCS_READ1 (c :: e :: tl) length false cbuf st =
      .next tl (length - 2) false (decide (d ≠ e)) cbuf
        { st with nDcsR := st.nDcsR + 1,
                  trace := st.trace ++ [Ev.dcsRead c 1 0] } ∧
    (∀ (fuel : Nat) (cmd : List Nat) (len2 : Nat) (skip : Bool)
        (cbuf2 : List Nat) (st2 : St),
      (cmdLoop env dm TYPE_MIPI lanes fuel cmd len2 skip true cbuf2 st2).2 =
          .brk true ∨
      ∃ r, (cmdLoop env dm TYPE_MIPI lanes fuel cmd len2 skip true cbuf2
          st2).2 = .early r) ∧
    (∀ s : St, sendFinish env TYPE_MIPI (s, .brk true) = (s, -22)) ∧
    (∀ s : St, sendFinish env TYPE_MIPI (s, .brk false) = (s, 0)) ∧
    (∀ (s : St) (r : Int), sendFinish env TYPE_MIPI (s, .early r) = (s, r)) := by
  refine ⟨?_, cmdLoop_mm_persists env dm TYPE_MIPI lanes, fun s => rfl,
    fun s => rfl, fun s r => rfl⟩
  unfold stepRead
  dsimp only []
  rw [if_neg (show ¬ (false = true) from by decide)]
  unfold dispatchRead
  dsimp only []
  rw [if_neg (show ¬ (TYPE_MIPI = TYPE_I2C) from by decide),
    if_neg (show ¬ (TYPE_MIPI = TYPE_SPI) from by decide),
    if_neg (show ¬ ((0 : Nat) ≠ 0) from by decide)]
  rw [hr, hdat]
  rw [if_neg (show ¬ ((0 : Int) = -71) from by decide)]
  unfold finishStep
  dsimp only []
  rw [if_neg (show ¬ ((0 : Int) < 0) from by decide),
    if_neg (show ¬ (length < S_DCS_READ1 - S_DCS_READ1 + 1 +
      (if (0 : Nat) ≠ 0 then 2 else 1)) from by
        rw [if_neg (show ¬ ((0 : Nat) ≠ 0) from by decide)]
        simp only [S_DCS_READ1]
        omega),
    if_neg (show ¬ (length - (S_DCS_READ1 - S_DCS_READ1 + 1 +
      (if (0 : Nat) ≠ 0 then 2 else 1)) = 0) from by
        rw [if_neg (show ¬ ((0 : Nat) ≠ 0) from by decide)]
        simp only [S_DCS_READ1]
        omega)]
  rfl

/-- C5 (witness): fetched 0x0E against expected 0x0F records a mismatch and
continues with the (empty) remainder of the stream. -/
theorem c5_mismatch_records_but_continues_witness :
    stepRead (envDcsData 0x0E) TYPE_MIPI 0 S_DCS_READ1 [0x0A, 0x0F] 5 false
        cbufZero stPlain =
      .next [] 3 false true cbufZero
        { stPlain with nDcsR := 1, trace := [Ev.dcsRead 0x0A 1 0] } :=
  (c5_mismatch_records_but_continues (envDcsData 0x0E) dmTest 4 5 0x0E 0x0F
    0x0A [] cbufZero stPlain (by decide) (by decide) (by decide)).1

/-! ## C8: two-wire transport semantics -/

/-- C8: a two-wire write swaps the first two payload bytes, issues the
transfer, and on a negative status retries exactly once after a 10 ms sleep
(the final status being the retry's, clamped to 0 on success); a two-wire
read issues exactly one combined transfer (one event carrying both segments)
with no retry; and the 3-instruction stream Write([0x01,0x02]), Delay(5),
Write([0x03]) against a backend failing only the first attempt shows exactly
3 transfer attempts, one 10 ms retry sleep and one 5 ms delay, with overall
result 0. -/
theorem c8_i2c_transport (env : Env) (st : St) (a b : Nat) (rest : List Nat)
    (hlen : rest.length + 2 ≤ 63) :
    swap2 (a :: b :: rest) = b :: a :: rest ∧
    (0 ≤ env.i2cRet st.nI2c → simple_i2c_write env st (a :: b :: rest) =
      ({ st with tx_buf := overwrite st.tx_buf (b :: a :: rest),
                 nI2c := st.nI2c + 1,
                 trace := st.trace ++
                   [Ev.i2cXfer (b :: a :: rest) none (env.i2cRet st.nI2c)] },
        0)) ∧
    (env.i2cRet st.nI2c < 0 →
      (simple_i2c_write env st (a :: b :: rest)).1.trace =
        st.trace ++
          [Ev.i2cXfer (b :: a :: rest) none (env.i2cRet st.nI2c),
           Ev.sleepEv 10,
           Ev.i2cXfer (b :: a :: rest) none (env.i2cRet (st.nI2c + 1))] ∧
      (simple_i2c_write env st (a :: b :: rest)).2 =
        (if env.i2cRet (st.nI2c + 1) < 0 then env.i2cRet (st.nI2c + 1)
         else 0)) ∧
    (∀ rx_len, rx_len ≤ 63 →
      (simple_i2c_read env st (a :: b :: rest) rx_len).1.trace =
        st.trace ++
          [Ev.i2cXfer (b :: a :: rest) (some rx_len) (env.i2cRet st.nI2c)] ∧
      (simple_i2c_read env st (a :: b :: rest) rx_len).1.nI2c =
        st.nI2c + 1) ∧
    (send_cmd_list envI2cFail1 dmTest TYPE_I2C 4 [2, 1, 2, 0x40, 5, 1, 3]
        cbufZero stPlain).1.trace =
      [Ev.i2cXfer [2, 1] none (-5), Ev.sleepEv 10, Ev.i2cXfer [2, 1] none 0,
       Ev.sleepEv 5, Ev.i2cXfer [3] none 0] ∧
    (send_cmd_list envI2cFail1 dmTest TYPE_I2C 4 [2, 1, 2, 0x40, 5, 1, 3]
        cbufZero stPlain).2 = 0 := by
  have hne : ¬ ((a :: b :: rest).length > 63) := by
    simp only [List.length_cons]
    omega
  refine ⟨rfl, ?_, ?_, ?_, by decide, by decide⟩
  · intro h
    unfold simple_i2c_write
    rw [if_neg hne]
    dsimp only []
    rw [if_neg (show ¬ (env.i2cRet st.nI2c < 0) from by omega)]
    rfl
  · intro h
    unfold simple_i2c_write
    rw [if_neg hne]
    dsimp only []
    rw [if_pos h]
    refine ⟨?_, rfl⟩
    rw [show swap2 (a :: b :: rest) = b :: a :: rest from rfl]
    simp
  · intro rx_len hrx
    unfold simple_i2c_read
    rw [if_neg hne, if_neg (show ¬ (rx_len > 63) from by omega)]
    exact ⟨rfl, rfl⟩

/-- C8 (witness): the failing-then-succeeding two-byte write at a fresh
state: two attempts separated by the 10 ms sleep, final status 0. -/
theorem c8_i2c_transport_witness :
    (simple_i2c_write envI2cFail1 stPlain [1, 2]).1.trace =
      [Ev.i2cXfer [2, 1] none (-5), Ev.sleepEv 10,
       Ev.i2cXfer [2, 1] none 0] ∧
    (simple_i2c_write envI2cFail1 stPlain [1, 2]).2 = 0 := by
  have h := (c8_i2c_transport envI2cFail1 stPlain 1 2 [] (by decide)).2.2.1
    (by decide)
  exact ⟨h.1.trans (by decide), h.2.trans (by decide)⟩

/-! ## C9: read retry on -EPROTO -/

/-- C9 (counterexample): a generic read whose transport persistently fails
with `-EPROTO` is retried once (two transfer attempts in the trace), but the
still-failing result is NOT reported: the dispatch status is forced to 0, so
the instruction's result is success, contradicting "the failure is reported
as the instruction's result". -/
theorem c9_generic_persistent_failure_not_reported :
    (dispatchRead envGenEproto TYPE_MIPI 1 1 2 [1, 2, 0x0F] stPlain).2.1 =
      0 ∧
    (dispatchRead envGenEproto TYPE_MIPI 1 1 2 [1, 2, 0x0F]
        stPlain).1.trace =
      [Ev.genRead 1 2 1 (-71), Ev.genRead 1 2 1 (-71)] := by
  decide

/-- C9 (amended): a DCS read is retried exactly once when the first attempt
returns `-EPROTO` and its status is the second attempt's status (reported,
and a negative dispatch status faults the loop); a DCS read whose first
status is not `-EPROTO` is not retried; a generic read retries once on
`-EPROTO` in the same way but its final status is always forced to 0,
so a persistent generic failure is never reported. -/
theorem c9_read_retry_once (env : Env) (st : St) (rdLen : Nat)
    (cmd : List Nat) :
    (env.dcsReadRet st.nDcsR = -71 →
      (dispatchRead env TYPE_MIPI 0 rdLen 1 cmd st).1.trace =
        st.trace ++ [Ev.dcsRead (cmd.headD 0) rdLen (-71),
          Ev.dcsRead (cmd.headD 0) rdLen (env.dcsReadRet (st.nDcsR + 1))] ∧
      (dispatchRead env TYPE_MIPI 0 rdLen 1 cmd st).2.1 =
        env.dcsReadRet (st.nDcsR + 1)) ∧
    (env.dcsReadRet st.nDcsR ≠ -71 →
      (dispatchRead env TYPE_MIPI 0 rdLen 1 cmd st).1.trace =
        st.trace ++
          [Ev.dcsRead (cmd.headD 0) rdLen (env.dcsReadRet st.nDcsR)] ∧
      (dispatchRead env TYPE_MIPI 0 rdLen 1 cmd st).2.1 =
        env.dcsReadRet st.nDcsR) ∧
    (env.genReadRet st.nGenR = -71 →
      (dispatchRead env TYPE_MIPI 1 rdLen 2 cmd st).1.trace =
        st.trace ++ [Ev.genRead (cmd.headD 0) (cmd.tail.headD 0) rdLen (-71),
          Ev.genRead (cmd.headD 0) (cmd.tail.headD 0) rdLen
            (env.genReadRet (st.nGenR + 1))] ∧
      (dispatchRead env TYPE_MIPI 1 rdLen 2 cmd st).2.1 = 0) ∧
    (env.genReadRet st.nGenR ≠ -71 →
      (dispatchRead env TYPE_MIPI 1 rdLen 2 cmd st).1.trace =
        st.trace ++ [Ev.genRead (cmd.headD 0) (cmd.tail.headD 0) rdLen
          (env.genReadRet st.nGenR)] ∧
      (dispatchRead env TYPE_MIPI 1 rdLen 2 cmd st).2.1 = 0) ∧
    (∀ (mm : Bool) (cbuf : List Nat) (s : St) (r : Int) (n len2 : Nat),
      r < 0 → finishStep cmd len2 mm cbuf s r n = .fault r s) := by
  refine ⟨?_, ?_, ?_, ?_, ?_⟩
  · intro h
    unfold dispatchRead
    rw [if_neg (show ¬ (TYPE_MIPI = TYPE_I2C) from by decide),
      if_neg (show ¬ (TYPE_MIPI = TYPE_SPI) from by decide),
      if_neg (show ¬ ((0 : Nat) ≠ 0) from by decide)]
    dsimp only []
    rw [h, if_pos rfl]
    exact ⟨by simp, rfl⟩
  · intro h
    unfold dispatchRead
    rw [if_neg (show ¬ (TYPE_MIPI = TYPE_I2C) from by decide),
      if_neg (show ¬ (TYPE_MIPI = TYPE_SPI) from by decide),
      if_neg (show ¬ ((0 : Nat) ≠ 0) from by decide)]
    dsimp only []
    rw [if_neg h]
    exact ⟨rfl, rfl⟩
  · intro h
    unfold dispatchRead
    rw [if_neg (show ¬ (TYPE_MIPI = TYPE_I2C) from by decide),
      if_neg (show ¬ (TYPE_MIPI = TYPE_SPI) from by decide),
      if_pos (show (1 : Nat) ≠ 0 from by decide)]
    dsimp only []
    rw [h, if_pos rfl]
    exact ⟨by simp, rfl⟩
  · intro h
    unfold dispatchRead
    rw [if_neg (show ¬ (TYPE_MIPI = TYPE_I2C) from by decide),
      if_neg (show ¬ (TYPE_MIPI = TYPE_SPI) from by decide),
      if_pos (show (1 : Nat) ≠ 0 from by decide)]
    dsimp only []
    rw [if_neg h]
    exact ⟨rfl, rfl⟩
  · intro mm cbuf s r n len2 h
    unfold finishStep
    rw [if_pos h]

/-- C9 (witness): a persistently `-EPROTO`-failing DCS read makes exactly
two attempts and its status is the second failure. -/
theorem c9_read_retry_once_witness :
    (dispatchRead envDcsEproto TYPE_MIPI 0 1 1 [0x0A, 0x0F] stPlain).1.trace =
      [Ev.dcsRead 0x0A 1 (-71), Ev.dcsRead 0x0A 1 (-71)] ∧
    (dispatchRead envDcsEproto TYPE_MIPI 0 1 1 [0x0A, 0x0F] stPlain).2.1 =
      -71 := by
  have h := (c9_read_retry_once envDcsEproto stPlain 1 [0x0A, 0x0F]).1
    (by decide)
  exact ⟨h.1.trans (by decide), h.2.trans (by decide)⟩

end PanelSimple
